import Mathlib

/-!
# thymer-synchub desktop bridge

A shallow embedding of `src/desktop/bridge.go`, of the lines of `src/desktop/app.go`
that configure the bridge, of `handleQuery` in `src/desktop/api.go`, of
`handleStateless` and `executeTool` in `src/desktop/mcp.go` and of `ThymerURL` in
`src/desktop/config.go`, followed by theorems about it.

Modelling conventions.

* A decoded JSON document (`interface{}` as produced by `encoding/json`) is a `JVal`;
  a `map[string]interface{}` is an association list `JObj` read with `jget`.
* Every section of code that runs under `b.mu` or `b.pendingMu` is one atomic step on
  the `Bridge` record.  `handleWebSocket` is cut at its two blocking points into
  `handleWebSocketAccept` (lines 109-125) and `handleWebSocketExit` (lines 137-151);
  the frames read in between are handled by `handleMessage`.
* What a step does to the outside world (frames written, sockets closed, callbacks
  invoked, values sent on the channels of a `PendingCall`) is returned as a list of
  `Effect`s, oldest first.  Calls to `log` are not modelled.
* The callback fields `OnConnect` and `OnDisconnect` are modelled by whether they are
  non-nil; invoking one is the effect `onConnect` or `onDisconnect`.
-/

namespace SyncHub

/-! ## JSON values -/

/-- A value decoded by `encoding/json` into `interface{}`.  A number is kept as its
literal: no function of the bridge computes with it. -/
inductive JVal where
  | null
  | bool (b : Bool)
  | num (lit : String)
  | str (s : String)
  | arr (xs : List JVal)
  | obj (kvs : List (String × JVal))

/-- A `map[string]interface{}`. -/
abbrev JObj := List (String × JVal)

/-- The map index expression `m[key]`: `none` when the key is absent. -/
def jget (m : JObj) (key : String) : Option JVal := List.lookup key m

/-- The type assertion `v.(string)` on the result of a map index. -/
def asString : Option JVal → Option String
  | some (JVal.str s) => some s
  | _ => none

/-- The type assertion `v.(bool)` on the result of a map index. -/
def asBool : Option JVal → Option Bool
  | some (JVal.bool b) => some b
  | _ => none

/-- The type assertion `v.([]interface{})` on the result of a map index. -/
def asArr : Option JVal → Option (List JVal)
  | some (JVal.arr xs) => some xs
  | _ => none

/-- The type assertion `v.(map[string]interface{})` on the result of a map index. -/
def asObj : Option JVal → Option JObj
  | some (JVal.obj kvs) => some kvs
  | _ => none

/-- Source `getString` (bridge.go 358-363). -/
def getString (m : JObj) (key : String) : String :=
  match asString (jget m key) with
  | some v => v
  | none => ""

/-- Source `getBool` (bridge.go 365-370). -/
def getBool (m : JObj) (key : String) : Bool :=
  match asBool (jget m key) with
  | some v => v
  | none => false

/-! ## Data model (bridge.go 21-59) -/

/-- Source `Tool`.  `Parameters` is `none` for a nil map. -/
structure Tool where
  Name : String
  Description : String
  Parameters : Option JObj

/-- Source `Plugin`. -/
structure Plugin where
  Name : String
  Enabled : Bool
deriving DecidableEq, Repr

/-- A `*websocket.Conn`, identified by its address. -/
abbrev Conn := Nat

/-- An `error` value built by `fmt.Errorf`: it is characterised by its message. -/
structure GoError where
  msg : String
deriving DecidableEq, Repr

/-- A `json.RawMessage`: `none` is the nil slice, `some v` the bytes that
`json.Marshal` produces for `v`. -/
abbrev RawMessage := Option JVal

/-- A `*PendingCall`: the address of a pair of one-slot channels `Result` and `Error`.
The `Call` that draws the counter value `n` allocates the pair with address `n`. -/
structure PendingCall where
  addr : Int
deriving DecidableEq, Repr

/-- Source `Bridge`.  The `server` field and the two mutexes are not modelled;
`callID` is the value of the atomic `int64` counter. -/
structure Bridge where
  port : Int
  client : Option Conn
  tools : List Tool
  plugins : List Plugin
  callID : Int
  pending : List (String × PendingCall)
  OnConnect : Bool
  OnDisconnect : Bool
  connected : Bool

/-- What a step does outside the `Bridge` record. -/
inductive Effect where
  | writeControl (conn : Conn) (closeCode : Nat) (reason : String)
  | close (conn : Conn)
  | writeMessage (conn : Conn) (msg : JObj)
  | onConnect
  | onDisconnect
  | sendError (pc : PendingCall) (err : GoError)
  | sendResult (pc : PendingCall) (data : RawMessage)

/-- The effect is an invocation of `OnConnect`. -/
def Effect.isConnect : Effect → Bool
  | Effect.onConnect => true
  | _ => false

/-- The effect is an invocation of `OnDisconnect`. -/
def Effect.isDisconnect : Effect → Bool
  | Effect.onDisconnect => true
  | _ => false

/-- The effect is a send on a channel of some `PendingCall`. -/
def Effect.isDelivery : Effect → Bool
  | Effect.sendError _ _ => true
  | Effect.sendResult _ _ => true
  | _ => false

/-- The effect is a send on a channel of the `PendingCall` `pc`. -/
def Effect.deliversTo (pc : PendingCall) : Effect → Bool
  | Effect.sendError q _ => decide (q = pc)
  | Effect.sendResult q _ => decide (q = pc)
  | _ => false

/-- `delete(m, key)` on a Go map. -/
def mapDelete {α : Type} (m : List (String × α)) (key : String) : List (String × α) :=
  m.filter (fun kv => decide (kv.1 ≠ key))

/-- `m[key] = v` on a Go map. -/
def mapSet {α : Type} (m : List (String × α)) (key : String) (v : α) : List (String × α) :=
  (key, v) :: mapDelete m key

/-! ## Construction (bridge.go 61-66, app.go 41-65) -/

/-- Source `NewBridge`. -/
def NewBridge (port : Int) : Bridge :=
  { port := port, client := none, tools := [], plugins := [], callID := 0,
    pending := [], OnConnect := false, OnDisconnect := false, connected := false }

/-- The bridge as `App.Start` configures it (app.go 41-65): both callbacks are set
when `mcpPort > 0`, none otherwise. -/
def App.startBridge (wsPort mcpPort : Int) : Bridge :=
  if mcpPort > 0 then
    { NewBridge wsPort with OnConnect := true, OnDisconnect := true }
  else
    NewBridge wsPort

/-! ## Sending (bridge.go 260-275) -/

/-- Source `Bridge.send`.  `writeErr` is what `conn.WriteMessage` returns. -/
def Bridge.send (b : Bridge) (msg : JObj) (writeErr : Option GoError) :
    Option GoError × List Effect :=
  match b.client with
  | none => (some ⟨"not connected"⟩, [])
  | some conn => (writeErr, [Effect.writeMessage conn msg])

/-! ## Inbound messages (bridge.go 154-258) -/

/-- The body of the loop over `toolsRaw` (bridge.go 191-219). -/
def toolsLoopBody (acc : List Tool) (t : JVal) : List Tool :=
  match asObj (some t) with
  | some toolMap =>
    let fields : String × String × Option JObj :=
      match asObj (jget toolMap "function") with
      | some fn =>
        (getString fn "name", getString fn "description", asObj (jget fn "parameters"))
      | none =>
        (getString toolMap "name", getString toolMap "description",
          asObj (jget toolMap "parameters"))
    if fields.1 ≠ "" then
      acc ++ [{ Name := fields.1, Description := fields.2.1, Parameters := fields.2.2 }]
    else acc
  | none => acc

/-- The body of the loop over `pluginsRaw` (bridge.go 238-245). -/
def pluginsLoopBody (acc : List Plugin) (p : JVal) : List Plugin :=
  match asObj (some p) with
  | some pluginMap =>
    acc ++ [{ Name := getString pluginMap "name", Enabled := getBool pluginMap "enabled" }]
  | none => acc

/-- The pending call that an inbound message answers (bridge.go 162-167): its `id` is
a string and the pending map has an entry for it. -/
def Bridge.replyTarget (b : Bridge) (msg : JObj) : Option (String × PendingCall) :=
  match asString (jget msg "id") with
  | some id =>
    match List.lookup id b.pending with
    | some pending => some (id, pending)
    | none => none
  | none => none

/-- The push part of `handleMessage` (bridge.go 184-257). -/
def Bridge.handlePush (b : Bridge) (msg : JObj) : Bridge × List Effect :=
  let msgType := getString msg "type"
  if msgType = "tools" then
    match asArr (jget msg "tools") with
    | some toolsRaw =>
      let b1 := { b with tools := toolsRaw.foldl toolsLoopBody [] }
      if !b1.connected && b1.OnConnect then
        ({ b1 with connected := true }, [Effect.onConnect])
      else
        (b1, [])
    | none => (b, [])
  else if msgType = "plugins" then
    match asArr (jget msg "plugins") with
    | some pluginsRaw => ({ b with plugins := pluginsRaw.foldl pluginsLoopBody [] }, [])
    | none => (b, [])
  else
    (b, [])

/-- Source `Bridge.handleMessage`.  `data` is the outcome of `json.Unmarshal` into a
map: `none` when it fails. -/
def Bridge.handleMessage (b : Bridge) (data : Option JObj) : Bridge × List Effect :=
  match data with
  | none => (b, [])
  | some msg =>
    match b.replyTarget msg with
    | some (id, pending) =>
      let b1 := { b with pending := mapDelete b.pending id }
      match asString (jget msg "error") with
      | some errMsg => (b1, [Effect.sendError pending ⟨errMsg⟩])
      | none =>
        match jget msg "result" with
        | some result => (b1, [Effect.sendResult pending (some result)])
        | none => (b1, [Effect.sendResult pending none])
    | none => b.handlePush msg

/-- The frames of a read loop handled one after the other, with nothing in between. -/
def Bridge.handleAll (b : Bridge) : List (Option JObj) → Bridge × List Effect
  | [] => (b, [])
  | m :: ms =>
    let r := b.handleMessage m
    let rs := Bridge.handleAll r.1 ms
    (rs.1, r.2 ++ rs.2)

/-! ## Connections (bridge.go 87-152) -/

/-- Lines 109-125 of `handleWebSocket`: `conn` is the upgraded connection. -/
def Bridge.handleWebSocketAccept (b : Bridge) (conn : Conn) : Bridge × List Effect :=
  let closing : List Effect :=
    match b.client with
    | some old => [Effect.writeControl old 1008 "Replaced by new client", Effect.close old]
    | none => []
  let b1 := { b with client := some conn }
  (b1, closing
    ++ (b1.send [("type", JVal.str "get_tools")] none).2
    ++ (b1.send [("type", JVal.str "get_plugins")] none).2)

/-- Lines 137-151 of `handleWebSocket`: the read loop of `conn` has ended. -/
def Bridge.handleWebSocketExit (b : Bridge) (conn : Conn) : Bridge × List Effect :=
  if b.client = some conn then
    let wasConnected := b.connected
    ({ b with client := none, tools := [], plugins := [], connected := false },
      if wasConnected && b.OnDisconnect then [Effect.onDisconnect] else [])
  else
    (b, [])

/-- Source `handleWebSocket` from the upgrade on, when nothing else touches the
bridge meanwhile: accept, handle the frames read, exit. -/
def Bridge.handleWebSocket (b : Bridge) (conn : Conn) (frames : List (Option JObj)) :
    Bridge × List Effect :=
  let a := b.handleWebSocketAccept conn
  let h := a.1.handleAll frames
  let e := h.1.handleWebSocketExit conn
  (e.1, a.2 ++ h.2 ++ e.2)

/-- Source `Bridge.Stop` (the `server` part left out). -/
def Bridge.Stop (b : Bridge) : Bridge × List Effect :=
  match b.client with
  | some c => ({ b with client := none }, [Effect.close c])
  | none => (b, [])

/-- Source `Bridge.IsConnected`. -/
def Bridge.IsConnected (b : Bridge) : Bool :=
  b.client.isSome

/-- Source `Bridge.GetTools`. -/
def Bridge.GetTools (b : Bridge) : List Tool := b.tools

/-- Source `Bridge.GetPlugins`. -/
def Bridge.GetPlugins (b : Bridge) : List Plugin := b.plugins

/-! ## Calls (bridge.go 277-316) -/

/-- The value an `int64` holds after an operation whose exact result is `x`: the
result modulo `2^64`, in the range from `-2^63` to `2^63 - 1`. -/
def wrapInt64 (x : Int) : Int :=
  (x + 9223372036854775808) % 18446744073709551616 - 9223372036854775808

/-- The identifier `fmt.Sprintf("call_%d", n)`. -/
def callIdent (n : Int) : String := "call_" ++ toString n

/-- What `Call` holds after registering: its identifier, its `PendingCall` and the
request it is about to transmit. -/
structure CallTicket where
  id : String
  pending : PendingCall
  msg : JObj

/-- Lines 279-296 of `Call`: allocate the identifier, build the request map, register
the `PendingCall`. -/
def Bridge.callRegister (b : Bridge) (msgType : String) (params : JObj) :
    Bridge × CallTicket :=
  let n := wrapInt64 (b.callID + 1)
  let id := callIdent n
  let msg : JObj :=
    params.foldl (fun m kv => mapSet m kv.1 kv.2)
      [("id", JVal.str id), ("type", JVal.str msgType)]
  let pending : PendingCall := { addr := n }
  ({ b with callID := n, pending := mapSet b.pending id pending },
    { id := id, pending := pending, msg := msg })

/-- The deferred function of `Call` (bridge.go 298-302). -/
def Bridge.callFinish (b : Bridge) (id : String) : Bridge :=
  { b with pending := mapDelete b.pending id }

/-- The case of the `select` in `Call` that fires (bridge.go 308-315). -/
inductive SelectCase where
  | result (data : RawMessage)
  | error (err : GoError)
  | timer

/-- What `Call` returns for the case of the `select` that fires. -/
def callSelect : SelectCase → RawMessage × Option GoError
  | SelectCase.result data => (data, none)
  | SelectCase.error err => (none, some err)
  | SelectCase.timer => (none, some ⟨"timeout"⟩)

/-- The cases of the `select` of the call owning `pc` that can fire, given the effects
so far and whether its 30-second timer has fired. -/
def readyCases (sent : List Effect) (pc : PendingCall) (timerFired : Bool) :
    List SelectCase :=
  sent.filterMap (fun e =>
      match e with
      | Effect.sendResult q data => if q = pc then some (SelectCase.result data) else none
      | Effect.sendError q err => if q = pc then some (SelectCase.error err) else none
      | _ => none)
    ++ (if timerFired then [SelectCase.timer] else [])

/-! ## Executions -/

/-- One atomic step of the bridge. -/
inductive Action where
  | accept (conn : Conn)
  | message (data : Option JObj)
  | loopExit (conn : Conn)
  | callRegister (msgType : String) (params : JObj)
  | callFinish (id : String)
  | stop

/-- The step an action takes. -/
def Bridge.step (b : Bridge) : Action → Bridge × List Effect
  | Action.accept conn => b.handleWebSocketAccept conn
  | Action.message data => b.handleMessage data
  | Action.loopExit conn => b.handleWebSocketExit conn
  | Action.callRegister msgType params => ((b.callRegister msgType params).1, [])
  | Action.callFinish id => (b.callFinish id, [])
  | Action.stop => b.Stop

/-- A sequence of steps. -/
def Bridge.run (b : Bridge) : List Action → Bridge × List Effect
  | [] => (b, [])
  | a :: as =>
    let r := b.step a
    let rs := Bridge.run r.1 as
    (rs.1, r.2 ++ rs.2)

/-- A state the bridge of a started `App` can be in. -/
def Reachable (b : Bridge) : Prop :=
  ∃ (wsPort mcpPort : Int) (acts : List Action),
    ((App.startBridge wsPort mcpPort).run acts).1 = b

/-- The number of invocations of `OnConnect` among the effects. -/
def connectCount (es : List Effect) : Nat := es.countP Effect.isConnect

/-- The number of invocations of `OnDisconnect` among the effects. -/
def disconnectCount (es : List Effect) : Nat := es.countP Effect.isDisconnect

/-! ## The whole of `Call` (bridge.go 277-316) -/

/-- What an invocation of `Call` gives back: the two returned values, the bridge after
the deferred delete, and the effects from the send up to the return. -/
structure CallReturn where
  bridge : Bridge
  payload : RawMessage
  err : Option GoError
  effects : List Effect

/-- Source `Bridge.Call`.  `writeErr` is what `conn.WriteMessage` returns for the
request; `during` are the steps the other goroutines take while `Call` is blocked in
its `select`; `timerFired` tells whether the 30-second timer has fired when the
`select` is woken; `choice` picks among the cases that are ready then.  The outcome is
`none` while no case is ready, that is while `Call` is still blocked. -/
def Bridge.Call (b : Bridge) (msgType : String) (params : JObj) (writeErr : Option GoError)
    (during : List Action) (timerFired : Bool) (choice : Nat) : Option CallReturn :=
  let reg := b.callRegister msgType params
  let sent := reg.1.send reg.2.msg writeErr
  match sent.1 with
  | some err =>
    some { bridge := reg.1.callFinish reg.2.id, payload := none, err := some err,
           effects := sent.2 }
  | none =>
    let r := reg.1.run during
    let ready := readyCases r.2 reg.2.pending timerFired
    match ready[choice % ready.length]? with
    | some c =>
      some { bridge := r.1.callFinish reg.2.id, payload := (callSelect c).1,
             err := (callSelect c).2, effects := sent.2 ++ r.2 }
    | none => none

/-- The identifiers that the invocations of `Call` among the steps allocate, in the
order of the invocations. -/
def Bridge.allocated (b : Bridge) : List Action → List String
  | [] => []
  | Action.callRegister msgType params :: as =>
    (b.callRegister msgType params).2.id
      :: Bridge.allocated (b.callRegister msgType params).1 as
  | a :: as => Bridge.allocated (b.step a).1 as

/-! ## The tool list of the RPC adapter (mcp.go 109-127) -/

/-- The schema `{"type":"object","properties":{}}` of mcp.go 113. -/
def defaultInputSchema : JObj :=
  [("type", JVal.str "object"), ("properties", JVal.obj [])]

/-- The body of the loop over the tools in the `tools/list` case (mcp.go 112-122). -/
def mcpToolsLoopBody (acc : List JVal) (t : Tool) : List JVal :=
  let inputSchema : JObj :=
    match t.Parameters with
    | some p => p
    | none => defaultInputSchema
  acc ++ [JVal.obj [("name", JVal.str t.Name), ("description", JVal.str t.Description),
                    ("inputSchema", JVal.obj inputSchema)]]

/-- The `tools/list` case of `MCPServer.handleStateless` (mcp.go 109-127): the response
document it encodes for the bridge `b` and the request identifier `reqID`. -/
def MCPServer.handleToolsList (b : Bridge) (reqID : JVal) : JVal :=
  let tools := b.GetTools
  let mcpTools := tools.foldl mcpToolsLoopBody []
  JVal.obj [("jsonrpc", JVal.str "2.0"), ("id", reqID),
            ("result", JVal.obj [("tools", JVal.arr mcpTools)])]

/-! ## Tool and sync calls (bridge.go 336-356) -/

/-- What the outside world contributes to one invocation of `Call`: the four last
arguments of `Bridge.Call`. -/
structure CallEnv where
  writeErr : Option GoError
  during : List Action
  timerFired : Bool
  choice : Nat

/-- A `map[string]interface{}` stored as a value: a nil map encodes as `null`. -/
def mapValue : Option JObj → JVal
  | some m => JVal.obj m
  | none => JVal.null

/-- Source `Bridge.ExecuteTool`. -/
def Bridge.ExecuteTool (b : Bridge) (name : String) (args : Option JObj) (env : CallEnv) :
    Option CallReturn :=
  b.Call "tool_call" [("name", JVal.str name), ("args", mapValue args)]
    env.writeErr env.during env.timerFired env.choice

/-- Source `Bridge.Sync`: the payload of `Call` is dropped. -/
def Bridge.Sync (b : Bridge) (pluginID : String) (env : CallEnv) : Option CallReturn :=
  (b.Call "sync" [("plugin", JVal.str pluginID)]
    env.writeErr env.during env.timerFired env.choice).map
      (fun r => { r with payload := none })

/-- Source `Bridge.SyncAll`: the payload of `Call` is dropped. -/
def Bridge.SyncAll (b : Bridge) (env : CallEnv) : Option CallReturn :=
  (b.Call "sync_all" [] env.writeErr env.during env.timerFired env.choice).map
    (fun r => { r with payload := none })

/-! ## Configuration (config.go 11-16, 66-80) -/

/-- Source `Config`. -/
structure Config where
  Workspace : String
  ThymerURLv : String
  Token : String
  path : String
deriving DecidableEq, Repr

/-- The call `strings.Contains(s, sub)` for a `sub` that is the single character `c`. -/
def stringsContainsChar (s : String) (c : Char) : Bool := s.data.contains c

/-- Source `Config.ThymerURL`. -/
def Config.ThymerURL (c : Config) : String :=
  if c.ThymerURLv ≠ "" then c.ThymerURLv
  else if c.Workspace = "" then "https://app.thymer.com"
  else if !stringsContainsChar c.Workspace '.' then "https://" ++ c.Workspace ++ ".thymer.com"
  else "https://" ++ c.Workspace

/-! ## The HTTP handlers (app.go 150-156, api.go 26-58, mcp.go 72-211) -/

/-- Source `App`, reduced to its configuration and its bridge (`none` before `Start`). -/
structure App where
  config : Config
  bridge : Option Bridge

/-- Source `App.IsConnected`. -/
def App.IsConnected (a : App) : Bool :=
  match a.bridge with
  | none => false
  | some b => b.IsConnected

/-- The body of an HTTP response: the text that `http.Error` writes, the bytes of a
`json.RawMessage`, the document that a `json.Encoder` encodes, or nothing. -/
inductive Body where
  | text (s : String)
  | raw (data : RawMessage)
  | json (doc : JVal)
  | empty

/-- An HTTP response: its status and its body (headers are not modelled). -/
structure HTTPResponse where
  status : Nat
  body : Body

/-- What a handler that has returned did: its response, the state it leaves (the app or
the bridge) and its effects on the channel. -/
structure Handled (σ : Type) where
  response : HTTPResponse
  state : σ
  effects : List Effect

/-- The call `http.Error(w, msg, code)`: the message and a newline, with the status. -/
def httpError (msg : String) (code : Nat) : HTTPResponse :=
  { status := code, body := Body.text (msg ++ "\n") }

/-- The query parameters of a request, a `url.Values`. -/
abbrev Values := List (String × List String)

/-- Source `url.Values.Get`: the first value of the key, or the empty string. -/
def Values.Get (v : Values) (key : String) : String :=
  match List.lookup key v with
  | some (x :: _) => x
  | _ => ""

/-- The body of the loop that builds `args` in `handleQuery` (api.go 44-48). -/
def queryArgsLoopBody (args : JObj) (kv : String × List String) : JObj :=
  match kv.2 with
  | x :: _ => if kv.1 ≠ "collection" then mapSet args kv.1 (JVal.str x) else args
  | [] => args

/-- Source `App.handleQuery`.  The outcome is `none` while the tool call is blocked. -/
def App.handleQuery (a : App) (query : Values) (env : CallEnv) : Option (Handled App) :=
  if !a.IsConnected then
    some { response := httpError "\x7b\"error\":\"SyncHub not connected\"\x7d" 503,
           state := a, effects := [] }
  else
    let collection := Values.Get query "collection"
    if collection = "" then
      some { response := httpError "\x7b\"error\":\"collection parameter required\"\x7d" 400,
             state := a, effects := [] }
    else
      let toolName := collection ++ "_find"
      let args : JObj := query.foldl queryArgsLoopBody []
      match a.bridge with
      | none => none
      | some b =>
        match b.ExecuteTool toolName (some args) env with
        | none => none
        | some r =>
          match r.err with
          | some err =>
            some { response := httpError ("\x7b\"error\":\"" ++ err.msg ++ "\"\x7d") 502,
                   state := { a with bridge := some r.bridge }, effects := r.effects }
          | none =>
            some { response := { status := 200, body := Body.raw r.payload },
                   state := { a with bridge := some r.bridge }, effects := r.effects }

/-- The request structure that `handleStateless` decodes the body into (mcp.go 79-84);
`ID` is `null` and `Params` is `none` when the body has no such field. -/
structure RPCRequest where
  JSONRPC : String
  ID : JVal
  Method : String
  Params : Option JObj

/-- Source `MCPServer.jsonRPCError`: the document it encodes. -/
def MCPServer.jsonRPCError (id : JVal) (code : Int) (message : String) : HTTPResponse :=
  { status := 200,
    body := Body.json (JVal.obj [("jsonrpc", JVal.str "2.0"), ("id", id),
      ("error", JVal.obj [("code", JVal.num (toString code)),
                          ("message", JVal.str message)])]) }

/-- The call `json.Unmarshal(result, &structured)` for a nil `map[string]interface{}`
(mcp.go 205-206): `none` is an error, `some none` leaves the map nil (the payload is
`null`), `some (some m)` fills it.  Empty input and JSON that is no object are errors. -/
def unmarshalMap : RawMessage → Option (Option JObj)
  | some (JVal.obj m) => some (some m)
  | some JVal.null => some none
  | _ => none

/-- The conversion `string(result)`; `render v` is the text `json.Marshal` writes for
`v`. -/
def rawText (render : JVal → String) : RawMessage → String
  | some v => render v
  | none => ""

/-- What `MCPServer.executeTool` returns, with the bridge it leaves and its effects. -/
structure ToolOutcome where
  structured : Option JObj
  err : Option GoError
  bridge : Bridge
  effects : List Effect

/-- Source `MCPServer.executeTool`.  The outcome is `none` while the call is blocked. -/
def MCPServer.executeTool (b : Bridge) (name : String) (args : Option JObj)
    (render : JVal → String) (env : CallEnv) : Option ToolOutcome :=
  match b.ExecuteTool name args env with
  | none => none
  | some r =>
    match r.err with
    | some err =>
      some { structured := none, err := some err, bridge := r.bridge, effects := r.effects }
    | none =>
      match unmarshalMap r.payload with
      | none =>
        some { structured := some [("text", JVal.str (rawText render r.payload))],
               err := none, bridge := r.bridge, effects := r.effects }
      | some structured =>
        some { structured := structured, err := none, bridge := r.bridge,
               effects := r.effects }

/-- Source `MCPServer.handleStateless`.  `httpMethod` is `r.Method`, `decoded` the
outcome of decoding the body (`none` when it fails).  The outcome is `none` while the
tool call is blocked. -/
def MCPServer.handleStateless (b : Bridge) (httpMethod : String) (decoded : Option RPCRequest)
    (render : JVal → String) (env : CallEnv) : Option (Handled Bridge) :=
  if httpMethod ≠ "POST" then
    some { response := httpError "POST only" 405, state := b, effects := [] }
  else
    match decoded with
    | none =>
      some { response := MCPServer.jsonRPCError JVal.null (-32700) "Parse error",
             state := b, effects := [] }
    | some req =>
      if req.Method = "initialize" then
        some { response := { status := 200, body := Body.json (JVal.obj
                 [("jsonrpc", JVal.str "2.0"), ("id", req.ID),
                  ("result", JVal.obj
                    [("protocolVersion", JVal.str "2024-11-05"),
                     ("serverInfo", JVal.obj
                        [("name", JVal.str "thymer"), ("version", JVal.str "0.1.0")]),
                     ("capabilities", JVal.obj
                        [("tools", JVal.obj [("listChanged", JVal.bool true)])])])]) },
               state := b, effects := [] }
      else if req.Method = "notifications/initialized" then
        some { response := { status := 204, body := Body.empty }, state := b, effects := [] }
      else if req.Method = "tools/list" then
        some { response := { status := 200,
                             body := Body.json (MCPServer.handleToolsList b req.ID) },
               state := b, effects := [] }
      else if req.Method = "tools/call" then
        let name := (asString (jget (req.Params.getD []) "name")).getD ""
        let args := asObj (jget (req.Params.getD []) "arguments")
        if name = "" then
          some { response := MCPServer.jsonRPCError req.ID (-32602)
                   "Invalid params: name required",
                 state := b, effects := [] }
        else
          match MCPServer.executeTool b name args render env with
          | none => none
          | some out =>
            match out.err with
            | some err =>
              some { response := MCPServer.jsonRPCError req.ID (-32000) err.msg,
                     state := out.bridge, effects := out.effects }
            | none =>
              some { response := { status := 200, body := Body.json (JVal.obj
                       [("jsonrpc", JVal.str "2.0"), ("id", req.ID),
                        ("result", JVal.obj
                          [("content", JVal.arr []),
                           ("structuredContent", mapValue out.structured)])]) },
                     state := out.bridge, effects := out.effects }
      else
        some { response := MCPServer.jsonRPCError req.ID (-32601)
                 ("Method not found: " ++ req.Method),
               state := b, effects := [] }

/-! ## Specification-side definitions -/

/-- The canonical tool of one element of a `tools` push, in the words of the
specification: an object element is read from its `function` object when it has one and
from itself otherwise, and yields a tool when the name read is non-empty. -/
def canonicalTool (t : JVal) : Option Tool :=
  match t with
  | JVal.obj element =>
    let source : JObj :=
      match jget element "function" with
      | some (JVal.obj fn) => fn
      | _ => element
    let name := getString source "name"
    if name = "" then none
    else some { Name := name, Description := getString source "description",
                Parameters := asObj (jget source "parameters") }
  | _ => none

/-- The plugin of one element of a `plugins` push, in the words of the specification. -/
def canonicalPlugin (p : JVal) : Option Plugin :=
  match p with
  | JVal.obj element =>
    some { Name := getString element "name", Enabled := getBool element "enabled" }
  | _ => none

/-- The descriptor of one registry tool in a `tools/list` result, in the words of the
specification: its name, its description, and as `inputSchema` its parameter schema, or
the empty-object schema when it has none. -/
def toolDescriptor (t : Tool) : JVal :=
  JVal.obj [("name", JVal.str t.Name), ("description", JVal.str t.Description),
            ("inputSchema", JVal.obj (t.Parameters.getD defaultInputSchema))]

/-- The host of a URL whose text after the scheme `https://` is `rest`, after RFC
3986: the authority ends at the first `/`, `?` or `#`, and the host is what follows
the last `@` of the authority, up to the first `:`. -/
def urlHostChars (rest : List Char) : List Char :=
  let authority := rest.takeWhile (fun c => !(c == '/' || c == '?' || c == '#'))
  let hostport := (authority.reverse.takeWhile (fun c => c != '@')).reverse
  hostport.takeWhile (fun c => c != ':')

/-- The host of an `https://` URL (the scheme has eight characters). -/
def urlHost (url : String) : String := String.mk (urlHostChars (url.data.drop 8))

/-- The string has none of the characters that end or split the authority of a URL:
`/`, `?`, `#`, `@` and `:`. -/
def noUrlDelimiter (s : String) : Bool :=
  s.data.all (fun c => !(c == '/' || c == '?' || c == '#' || c == '@' || c == ':'))

/-- The number of invocations of `Call` among the steps. -/
def callCount : List Action → Nat
  | [] => 0
  | Action.callRegister _ _ :: as => callCount as + 1
  | _ :: as => callCount as

/-- The message is handled as a `tools` push that replaces the tool set: it answers
no pending call, its `type` is `tools` and its `tools` field is an array. -/
def Bridge.isToolsPush (b : Bridge) (data : Option JObj) : Bool :=
  match data with
  | some msg =>
    (b.replyTarget msg).isNone && decide (getString msg "type" = "tools")
      && (asArr (jget msg "tools")).isSome
  | none => false

/-- What holds of the callbacks, the flag and the tools in every state of a started
bridge: the flag is set only when `OnConnect` is, the two callbacks are set together,
and with `OnConnect` set and the flag clear there are no tools. -/
def Bridge.Inv (b : Bridge) : Prop :=
  (b.connected = true → b.OnConnect = true)
    ∧ b.OnDisconnect = b.OnConnect
    ∧ (b.OnConnect = true → b.connected = false → b.tools = [])

/-! ## Sample data -/

/-- The push `tools:[{function:{name:"echo_find",description:"d",parameters:{}}}]`. -/
def sampleToolsPush : JObj :=
  [("type", JVal.str "tools"),
   ("tools", JVal.arr [JVal.obj [("function", JVal.obj
      [("name", JVal.str "echo_find"), ("description", JVal.str "d"),
       ("parameters", JVal.obj [])])]])]

/-- The push `plugins:[{name:"calendar",enabled:true}]`. -/
def samplePluginsPush : JObj :=
  [("type", JVal.str "plugins"),
   ("plugins", JVal.arr [JVal.obj
      [("name", JVal.str "calendar"), ("enabled", JVal.bool true)]])]

/-- An array of four tool elements: a nested tool, a flat tool, an object without a
name and a string. -/
def mixedToolsArray : List JVal :=
  [JVal.obj [("type", JVal.str "function"), ("function", JVal.obj
      [("name", JVal.str "notes_find"), ("description", JVal.str "n")])],
   JVal.obj [("name", JVal.str "flat"), ("parameters", JVal.obj [])],
   JVal.obj [("description", JVal.str "nameless")],
   JVal.str "junk"]

/-- The `tools` push that carries `mixedToolsArray`. -/
def mixedToolsPush : JObj :=
  [("type", JVal.str "tools"), ("tools", JVal.arr mixedToolsArray)]

/-- An array of three plugin elements: a full plugin, an object whose `name` is a
number and that has no `enabled`, and a string. -/
def mixedPluginsArray : List JVal :=
  [JVal.obj [("name", JVal.str "calendar"), ("enabled", JVal.bool true)],
   JVal.obj [("name", JVal.num "7")],
   JVal.str "junk"]

/-- The `plugins` push that carries `mixedPluginsArray`. -/
def mixedPluginsPush : JObj :=
  [("type", JVal.str "plugins"), ("plugins", JVal.arr mixedPluginsArray)]

/-- A `tools` push with two elements of the same name. -/
def duplicateToolsPush : JObj :=
  [("type", JVal.str "tools"),
   ("tools", JVal.arr [JVal.obj [("name", JVal.str "dup"), ("description", JVal.str "a")],
                       JVal.obj [("name", JVal.str "dup"), ("description", JVal.str "b")]])]

/-- A started bridge (default ports) on which connection 1 was accepted. -/
def acceptedBridge : Bridge :=
  ((App.startBridge 9848 9850).run [Action.accept 1]).1

/-- A started bridge on which connection 1 was accepted and pushed its tools, and on
which two calls are pending. -/
def liveBridge : Bridge :=
  ((App.startBridge 9848 9850).run
    [Action.accept 1, Action.message (some sampleToolsPush),
     Action.callRegister "tool_call" [("name", JVal.str "echo_find")],
     Action.callRegister "sync_all" []]).1

/-- The accepted bridge after six calls, on which the seventh call, `call_7`, is
registered and pending. -/
def callSevenBridge : Bridge :=
  ({ acceptedBridge with callID := 6 }.callRegister "tool_call"
    [("name", JVal.str "echo_find")]).1

/-- The reply `{id:"call_7", error:"boom"}`. -/
def boomReply : JObj := [("id", JVal.str "call_7"), ("error", JVal.str "boom")]

/-- The reply `{id:"call_1", error:{code:500}}`, whose `error` is an object. -/
def objectErrorReply : JObj :=
  [("id", JVal.str "call_1"), ("error", JVal.obj [("code", JVal.num "500")])]

/-- The reply `{id:"call_1"}`, with neither `result` nor `error`. -/
def bareReply : JObj := [("id", JVal.str "call_1")]

/-- The reply `{id:"call_1", error:"timeout"}`. -/
def timeoutWordReply : JObj := [("id", JVal.str "call_1"), ("error", JVal.str "timeout")]

/-- The reply `{id:"call_1", result:"late"}`. -/
def lateReply : JObj := [("id", JVal.str "call_1"), ("result", JVal.str "late")]

/-- The reply `{id:"call_1", result:[{title:"x"}]}`, whose result is an array. -/
def arrayReply : JObj :=
  [("id", JVal.str "call_1"),
   ("result", JVal.arr [JVal.obj [("title", JVal.str "x")]])]

/-- The reply `{id:"call_1", result:{count:1}}`, whose result is an object. -/
def objectReply : JObj :=
  [("id", JVal.str "call_1"), ("result", JVal.obj [("count", JVal.num "1")])]

/-- The reply `{id:"call_1", error:"not connected"}`. -/
def notConnectedWordReply : JObj :=
  [("id", JVal.str "call_1"), ("error", JVal.str "not connected")]

/-- The request `{"jsonrpc":"2.0","id":5,"method":"tools/call","params":{"name":
"echo_find","arguments":{}}}`. -/
def sampleToolCall : RPCRequest :=
  { JSONRPC := "2.0", ID := JVal.num "5", Method := "tools/call",
    Params := some [("name", JVal.str "echo_find"), ("arguments", JVal.obj [])] }

/-- An environment in which the write succeeds and the reply `reply` is handled while
the call is blocked. -/
def answeredBy (reply : JObj) : CallEnv :=
  { writeErr := none, during := [Action.message (some reply)], timerFired := false,
    choice := 0 }

/-- A bridge started by the app on which no connection is installed. -/
def idleBridge : Bridge := App.startBridge 9848 9850

/-- The query `collection=echo&limit=5&q=tea`. -/
def sampleQuery : Values :=
  [("collection", ["echo"]), ("limit", ["5"]), ("q", ["tea", "ignored"])]

/-- A configuration with the given workspace and no stored URL. -/
def workspaceConfig (workspace : String) : Config :=
  { Workspace := workspace, ThymerURLv := "", Token := "", path := "" }

/-- The text `[{"title":"x"}]`, which `json.Marshal` writes for the result of
`arrayReply`. -/
def arrayText : String := "[\x7b\"title\":\"x\"\x7d]"

/-! ## Lemmas on the steps -/

theorem handlePush_client (b : Bridge) (msg : JObj) :
    (b.handlePush msg).1.client = b.client := by
  unfold Bridge.handlePush
  simp only []
  split_ifs <;> (try split) <;> rfl

theorem handlePush_pending (b : Bridge) (msg : JObj) :
    (b.handlePush msg).1.pending = b.pending := by
  unfold Bridge.handlePush
  simp only []
  split_ifs <;> (try split) <;> rfl

theorem handlePush_callbacks (b : Bridge) (msg : JObj) :
    (b.handlePush msg).1.OnConnect = b.OnConnect
      ∧ (b.handlePush msg).1.OnDisconnect = b.OnDisconnect := by
  unfold Bridge.handlePush
  simp only []
  split_ifs <;> (try split) <;> exact ⟨rfl, rfl⟩

theorem handleMessage_client (b : Bridge) (data : Option JObj) :
    (b.handleMessage data).1.client = b.client := by
  unfold Bridge.handleMessage
  split
  · rfl
  · split
    · simp only []
      split
      · rfl
      · split <;> rfl
    · exact handlePush_client b _

theorem handleMessage_callbacks (b : Bridge) (data : Option JObj) :
    (b.handleMessage data).1.OnConnect = b.OnConnect
      ∧ (b.handleMessage data).1.OnDisconnect = b.OnDisconnect := by
  unfold Bridge.handleMessage
  split
  · exact ⟨rfl, rfl⟩
  · split
    · simp only []
      split
      · exact ⟨rfl, rfl⟩
      · split <;> exact ⟨rfl, rfl⟩
    · exact handlePush_callbacks b _

theorem handleAll_client (b : Bridge) (msgs : List (Option JObj)) :
    (b.handleAll msgs).1.client = b.client := by
  induction msgs generalizing b with
  | nil => rfl
  | cons m ms ih =>
    simp only [Bridge.handleAll]
    rw [ih, handleMessage_client]

theorem handleAll_append (b : Bridge) (xs ys : List (Option JObj)) :
    b.handleAll (xs ++ ys)
      = (((b.handleAll xs).1.handleAll ys).1,
          (b.handleAll xs).2 ++ ((b.handleAll xs).1.handleAll ys).2) := by
  induction xs generalizing b with
  | nil => simp [Bridge.handleAll]
  | cons m ms ih =>
    rw [List.cons_append]
    simp only [Bridge.handleAll, ih, List.append_assoc]

theorem handleMessage_reply (b : Bridge) (msg : JObj) (id : String) (pc : PendingCall)
    (h : b.replyTarget msg = some (id, pc)) :
    (b.handleMessage (some msg)).1 = { b with pending := mapDelete b.pending id } := by
  simp only [Bridge.handleMessage, h]
  split
  · rfl
  · split <;> rfl

theorem handleMessage_push (b : Bridge) (msg : JObj) (h : b.replyTarget msg = none) :
    b.handleMessage (some msg) = b.handlePush msg := by
  simp only [Bridge.handleMessage, h]

theorem handlePush_tools (b : Bridge) (msg : JObj) (toolsRaw : List JVal)
    (ht : getString msg "type" = "tools") (ha : asArr (jget msg "tools") = some toolsRaw) :
    b.handlePush msg
      = if !b.connected && b.OnConnect then
          ({ b with tools := toolsRaw.foldl toolsLoopBody [], connected := true },
            [Effect.onConnect])
        else ({ b with tools := toolsRaw.foldl toolsLoopBody [] }, []) := by
  simp only [Bridge.handlePush, ht, ha, if_true]

theorem handlePush_tools_none (b : Bridge) (msg : JObj)
    (ht : getString msg "type" = "tools") (ha : asArr (jget msg "tools") = none) :
    b.handlePush msg = (b, []) := by
  simp only [Bridge.handlePush, ht, ha, if_true]

theorem handlePush_plugins (b : Bridge) (msg : JObj) (pluginsRaw : List JVal)
    (hp : getString msg "type" = "plugins")
    (ha : asArr (jget msg "plugins") = some pluginsRaw) :
    b.handlePush msg = ({ b with plugins := pluginsRaw.foldl pluginsLoopBody [] }, []) := by
  have ht : ¬ ("plugins" = "tools") := by decide
  simp only [Bridge.handlePush, hp, ha, ht, if_true, if_false]

theorem handlePush_plugins_none (b : Bridge) (msg : JObj)
    (hp : getString msg "type" = "plugins") (ha : asArr (jget msg "plugins") = none) :
    b.handlePush msg = (b, []) := by
  have ht : ¬ ("plugins" = "tools") := by decide
  simp only [Bridge.handlePush, hp, ha, ht, if_true, if_false]

theorem handlePush_other (b : Bridge) (msg : JObj)
    (ht : getString msg "type" ≠ "tools") (hp : getString msg "type" ≠ "plugins") :
    b.handlePush msg = (b, []) := by
  simp only [Bridge.handlePush, ht, hp, if_false]

theorem handlePush_inv (b : Bridge) (msg : JObj) (h : b.Inv) : (b.handlePush msg).1.Inv := by
  obtain ⟨h1, h2, h3⟩ := h
  by_cases ht : getString msg "type" = "tools"
  · cases ha : asArr (jget msg "tools") with
    | none => rw [handlePush_tools_none b msg ht ha]; exact ⟨h1, h2, h3⟩
    | some toolsRaw =>
      rw [handlePush_tools b msg toolsRaw ht ha]
      cases hc : b.connected <;> cases ho : b.OnConnect <;>
        simp [Bridge.Inv, hc, ho] at h1 h2 h3 ⊢ <;> simp_all
  · by_cases hp : getString msg "type" = "plugins"
    · cases ha : asArr (jget msg "plugins") with
      | none => rw [handlePush_plugins_none b msg hp ha]; exact ⟨h1, h2, h3⟩
      | some pluginsRaw =>
        rw [handlePush_plugins b msg pluginsRaw hp ha]
        exact ⟨h1, h2, h3⟩
    · rw [handlePush_other b msg ht hp]; exact ⟨h1, h2, h3⟩

theorem handleMessage_inv (b : Bridge) (data : Option JObj) (h : b.Inv) :
    (b.handleMessage data).1.Inv := by
  cases data with
  | none => exact h
  | some msg =>
    cases hr : b.replyTarget msg with
    | none => rw [handleMessage_push b msg hr]; exact handlePush_inv b msg h
    | some t =>
      obtain ⟨id, pc⟩ := t
      rw [handleMessage_reply b msg id pc hr]
      exact h

theorem step_inv (b : Bridge) (a : Action) (h : b.Inv) : (b.step a).1.Inv := by
  cases a with
  | accept conn => exact h
  | message data => exact handleMessage_inv b data h
  | loopExit conn =>
    obtain ⟨h1, h2, h3⟩ := h
    simp only [Bridge.step, Bridge.handleWebSocketExit]
    by_cases hc : b.client = some conn
    · rw [if_pos hc]
      exact ⟨fun hf => by simp at hf, h2, fun _ _ => rfl⟩
    · rw [if_neg hc]
      exact ⟨h1, h2, h3⟩
  | callRegister msgType params => exact h
  | callFinish id => exact h
  | stop =>
    simp only [Bridge.step, Bridge.Stop]
    split <;> exact h

theorem run_inv (b : Bridge) (acts : List Action) (h : b.Inv) : (b.run acts).1.Inv := by
  induction acts generalizing b with
  | nil => exact h
  | cons a as ih => exact ih _ (step_inv b a h)

theorem startBridge_inv (wsPort mcpPort : Int) : (App.startBridge wsPort mcpPort).Inv := by
  unfold App.startBridge
  split_ifs
  · exact ⟨fun _ => rfl, rfl, fun _ _ => rfl⟩
  · exact ⟨fun h => by simp [NewBridge] at h, rfl, fun _ _ => rfl⟩

theorem reachable_inv (b : Bridge) (h : Reachable b) : b.Inv := by
  obtain ⟨wsPort, mcpPort, acts, rfl⟩ := h
  exact run_inv _ acts (startBridge_inv wsPort mcpPort)

theorem readyCases_append (xs ys : List Effect) (pc : PendingCall) (t : Bool)
    (h : ys.any Effect.isDelivery = false) :
    readyCases (xs ++ ys) pc t = readyCases xs pc t := by
  unfold readyCases
  rw [List.filterMap_append]
  have : ys.filterMap (fun e =>
      match e with
      | Effect.sendResult q data => if q = pc then some (SelectCase.result data) else none
      | Effect.sendError q err => if q = pc then some (SelectCase.error err) else none
      | _ => none) = [] := by
    rw [List.filterMap_eq_nil_iff]
    intro e he
    have hd : e.isDelivery = false := by
      rw [List.any_eq_false] at h
      simpa using h e he
    cases e <;> simp [Effect.isDelivery] at hd ⊢
  rw [this, List.append_nil]

theorem isToolsPush_iff (b : Bridge) (data : Option JObj) :
    b.isToolsPush data = true ↔
      ∃ msg toolsRaw, data = some msg ∧ b.replyTarget msg = none
        ∧ getString msg "type" = "tools" ∧ asArr (jget msg "tools") = some toolsRaw := by
  cases data with
  | none => simp [Bridge.isToolsPush]
  | some msg =>
    simp only [Bridge.isToolsPush, Bool.and_eq_true, Option.isNone_iff_eq_none,
      decide_eq_true_eq, Option.isSome_iff_exists, Option.some.injEq]
    constructor
    · rintro ⟨⟨hr, ht⟩, toolsRaw, ha⟩
      exact ⟨msg, toolsRaw, rfl, hr, ht, ha⟩
    · rintro ⟨m, toolsRaw, rfl, hr, ht, ha⟩
      exact ⟨⟨hr, ht⟩, toolsRaw, ha⟩

theorem connectCount_append (xs ys : List Effect) :
    connectCount (xs ++ ys) = connectCount xs + connectCount ys := by
  simp [connectCount, List.countP_append]

/-- A message that is no tools push leaves the flag alone and invokes no `OnConnect`. -/
theorem handleMessage_not_toolsPush (b : Bridge) (data : Option JObj)
    (h : b.isToolsPush data = false) :
    (b.handleMessage data).1.connected = b.connected
      ∧ connectCount (b.handleMessage data).2 = 0 := by
  cases data with
  | none => exact ⟨rfl, rfl⟩
  | some msg =>
    cases hr : b.replyTarget msg with
    | some t =>
      obtain ⟨id, pc⟩ := t
      refine ⟨by rw [handleMessage_reply b msg id pc hr], ?_⟩
      simp only [Bridge.handleMessage, hr]
      split
      · rfl
      · split <;> rfl
    | none =>
      rw [handleMessage_push b msg hr]
      by_cases ht : getString msg "type" = "tools"
      · cases ha : asArr (jget msg "tools") with
        | none => rw [handlePush_tools_none b msg ht ha]; exact ⟨rfl, rfl⟩
        | some toolsRaw =>
          simp [Bridge.isToolsPush, hr, ht, ha] at h
      · by_cases hp : getString msg "type" = "plugins"
        · cases ha : asArr (jget msg "plugins") with
          | none => rw [handlePush_plugins_none b msg hp ha]; exact ⟨rfl, rfl⟩
          | some pluginsRaw => rw [handlePush_plugins b msg pluginsRaw hp ha]; exact ⟨rfl, rfl⟩
        · rw [handlePush_other b msg ht hp]; exact ⟨rfl, rfl⟩

/-- A tools push: the flag afterwards and the effects, by the flag and callback before. -/
theorem handleMessage_toolsPush (b : Bridge) (data : Option JObj)
    (h : b.isToolsPush data = true) :
    (b.handleMessage data).1.connected = (b.connected || b.OnConnect)
      ∧ (b.handleMessage data).2
          = (if !b.connected && b.OnConnect then [Effect.onConnect] else []) := by
  obtain ⟨msg, toolsRaw, rfl, hr, ht, ha⟩ := (isToolsPush_iff b data).1 h
  rw [handleMessage_push b msg hr, handlePush_tools b msg toolsRaw ht ha]
  cases hc : b.connected <;> cases ho : b.OnConnect <;> simp

/-- With the flag set, no message clears it or invokes `OnConnect`. -/
theorem handleMessage_connected (b : Bridge) (data : Option JObj) (hc : b.connected = true) :
    (b.handleMessage data).1.connected = true
      ∧ connectCount (b.handleMessage data).2 = 0 := by
  cases h : b.isToolsPush data with
  | false =>
    obtain ⟨h1, h2⟩ := handleMessage_not_toolsPush b data h
    exact ⟨by rw [h1, hc], h2⟩
  | true =>
    obtain ⟨h1, h2⟩ := handleMessage_toolsPush b data h
    refine ⟨by rw [h1, hc]; rfl, ?_⟩
    rw [h2, hc]
    rfl

theorem handleAll_connected (b : Bridge) (msgs : List (Option JObj))
    (hc : b.connected = true) :
    (b.handleAll msgs).1.connected = true ∧ connectCount (b.handleAll msgs).2 = 0 := by
  induction msgs generalizing b with
  | nil => exact ⟨hc, rfl⟩
  | cons m ms ih =>
    obtain ⟨h1, h2⟩ := handleMessage_connected b m hc
    obtain ⟨h3, h4⟩ := ih (b.handleMessage m).1 h1
    simp only [Bridge.handleAll]
    exact ⟨h3, by rw [connectCount_append, h2, h4]⟩

theorem handleAll_callbacks (b : Bridge) (msgs : List (Option JObj)) :
    (b.handleAll msgs).1.OnConnect = b.OnConnect := by
  induction msgs generalizing b with
  | nil => rfl
  | cons m ms ih =>
    simp only [Bridge.handleAll]
    rw [ih, (handleMessage_callbacks b m).1]

/-- Frames none of which is a tools push when it is handled leave the flag alone and
invoke no `OnConnect`. -/
theorem handleAll_no_toolsPush (b : Bridge) (msgs : List (Option JObj))
    (h : ∀ p q r, msgs = p ++ q :: r → (b.handleAll p).1.isToolsPush q = false) :
    (b.handleAll msgs).1.connected = b.connected
      ∧ connectCount (b.handleAll msgs).2 = 0 := by
  induction msgs generalizing b with
  | nil => exact ⟨rfl, rfl⟩
  | cons m ms ih =>
    have hm : b.isToolsPush m = false := h [] m ms rfl
    obtain ⟨h1, h2⟩ := handleMessage_not_toolsPush b m hm
    have hrest : ∀ p q r, ms = p ++ q :: r →
        ((b.handleMessage m).1.handleAll p).1.isToolsPush q = false := by
      intro p q r hpqr
      have := h (m :: p) q r (by rw [hpqr]; rfl)
      simpa only [Bridge.handleAll] using this
    obtain ⟨h3, h4⟩ := ih (b.handleMessage m).1 hrest
    simp only [Bridge.handleAll]
    exact ⟨by rw [h3, h1], by rw [connectCount_append, h2, h4]⟩

theorem toolsLoopBody_eq (acc : List Tool) (t : JVal) :
    toolsLoopBody acc t = acc ++ (canonicalTool t).toList := by
  cases t with
  | obj element =>
    simp only [toolsLoopBody, canonicalTool, asObj]
    cases hf : jget element "function" with
    | none =>
      by_cases hn : getString element "name" = "" <;> simp [hn]
    | some v =>
      cases v with
      | obj fn => by_cases hn : getString fn "name" = "" <;> simp [hn]
      | null => by_cases hn : getString element "name" = "" <;> simp [hn]
      | bool x => by_cases hn : getString element "name" = "" <;> simp [hn]
      | num x => by_cases hn : getString element "name" = "" <;> simp [hn]
      | str x => by_cases hn : getString element "name" = "" <;> simp [hn]
      | arr x => by_cases hn : getString element "name" = "" <;> simp [hn]
  | null => simp [toolsLoopBody, canonicalTool, asObj]
  | bool x => simp [toolsLoopBody, canonicalTool, asObj]
  | num x => simp [toolsLoopBody, canonicalTool, asObj]
  | str x => simp [toolsLoopBody, canonicalTool, asObj]
  | arr x => simp [toolsLoopBody, canonicalTool, asObj]

theorem toolsLoop_eq (acc : List Tool) (toolsRaw : List JVal) :
    toolsRaw.foldl toolsLoopBody acc = acc ++ toolsRaw.filterMap canonicalTool := by
  induction toolsRaw generalizing acc with
  | nil => simp
  | cons t ts ih =>
    rw [List.foldl_cons, ih, toolsLoopBody_eq]
    cases h : canonicalTool t <;> simp [List.filterMap_cons, h]

theorem pluginsLoopBody_eq (acc : List Plugin) (p : JVal) :
    pluginsLoopBody acc p = acc ++ (canonicalPlugin p).toList := by
  cases p <;> simp [pluginsLoopBody, canonicalPlugin, asObj]

theorem pluginsLoop_eq (acc : List Plugin) (pluginsRaw : List JVal) :
    pluginsRaw.foldl pluginsLoopBody acc = acc ++ pluginsRaw.filterMap canonicalPlugin := by
  induction pluginsRaw generalizing acc with
  | nil => simp
  | cons t ts ih =>
    rw [List.foldl_cons, ih, pluginsLoopBody_eq]
    cases h : canonicalPlugin t <;> simp [List.filterMap_cons, h]

/-! ## Lemmas on maps -/

theorem lookup_mapDelete_self {α : Type} (m : List (String × α)) (key : String) :
    List.lookup key (mapDelete m key) = none := by
  induction m with
  | nil => rfl
  | cons kv rest ih =>
    obtain ⟨k, v⟩ := kv
    by_cases hk : k = key
    · simpa [mapDelete, List.filter_cons, hk] using ih
    · have hne : (key == k) = false := by
        rw [beq_eq_false_iff_ne]
        exact fun h => hk h.symm
      simpa [mapDelete, List.filter_cons, hk, List.lookup_cons, hne] using ih

theorem lookup_mapDelete_ne {α : Type} (m : List (String × α)) (key k : String)
    (h : k ≠ key) : List.lookup k (mapDelete m key) = List.lookup k m := by
  induction m with
  | nil => rfl
  | cons kv rest ih =>
    obtain ⟨k0, v⟩ := kv
    by_cases hk : k0 = key
    · subst hk
      have hne : (k == k0) = false := by
        rw [beq_eq_false_iff_ne]
        exact h
      simpa [mapDelete, List.filter_cons, List.lookup_cons, hne] using ih
    · by_cases hkk : k = k0
      · simp [mapDelete, List.filter_cons, hk, List.lookup_cons, hkk]
      · have hne : (k == k0) = false := by
          rw [beq_eq_false_iff_ne]
          exact hkk
        simpa [mapDelete, List.filter_cons, hk, List.lookup_cons, hne] using ih

theorem mapDelete_of_lookup_none {α : Type} (m : List (String × α)) (key : String)
    (h : List.lookup key m = none) : mapDelete m key = m := by
  induction m with
  | nil => rfl
  | cons kv rest ih =>
    obtain ⟨k, v⟩ := kv
    by_cases hk : key = k
    · simp [List.lookup_cons, hk] at h
    · have hne : (key == k) = false := by
        rw [beq_eq_false_iff_ne]
        exact hk
      rw [List.lookup_cons, hne] at h
      have hk2 : ¬ k = key := fun e => hk e.symm
      have ih2 := ih h
      unfold mapDelete at ih2 ⊢
      rw [List.filter_cons_of_pos (by simpa using hk2), ih2]

theorem lookup_mapSet_self {α : Type} (m : List (String × α)) (key : String) (v : α) :
    List.lookup key (mapSet m key v) = some v := by
  simp [mapSet, List.lookup_cons]

theorem lookup_mapSet_ne {α : Type} (m : List (String × α)) (key k : String) (v : α)
    (h : k ≠ key) : List.lookup k (mapSet m key v) = List.lookup k m := by
  have hne : (k == key) = false := by
    rw [beq_eq_false_iff_ne]
    exact h
  rw [mapSet, List.lookup_cons, hne]
  exact lookup_mapDelete_ne m key k h

/-! ## Lemmas on identifiers -/

/-- A decimal digit character denotes its digit. -/
theorem digitChar_value (k : Nat) (h : k < 10) : (Nat.digitChar k).toNat - 48 = k := by
  interval_cases k <;> rfl

theorem toDigitsCore_value (fuel n : Nat) (ds : List Char) (h : n < fuel) :
    (Nat.toDigitsCore 10 fuel n ds).foldl (fun a c => 10 * a + (c.toNat - 48)) 0
      = ds.foldl (fun a c => 10 * a + (c.toNat - 48)) n := by
  induction fuel generalizing n ds with
  | zero => omega
  | succ fuel ih =>
    unfold Nat.toDigitsCore
    simp only []
    have hd : (Nat.digitChar (n % 10)).toNat - 48 = n % 10 :=
      digitChar_value (n % 10) (Nat.mod_lt n (by decide))
    by_cases h0 : n / 10 = 0
    · rw [if_pos h0, List.foldl_cons, hd]
      congr 1
      omega
    · rw [if_neg h0, ih (n / 10) _ (by omega), List.foldl_cons, hd]
      congr 1
      omega

theorem repr_injective (j k : Nat) (h : Nat.repr j = Nat.repr k) : j = k := by
  have hl : Nat.toDigits 10 j = Nat.toDigits 10 k := by
    have := congrArg String.data h
    simpa [Nat.repr, List.asString] using this
  have hj := toDigitsCore_value (j + 1) j [] (Nat.lt_succ_self j)
  have hk := toDigitsCore_value (k + 1) k [] (Nat.lt_succ_self k)
  simp only [List.foldl_nil] at hj hk
  unfold Nat.toDigits at hl
  rw [← hj, ← hk, hl]

theorem callIdent_injective (j k : Nat) (h : callIdent j = callIdent k) : j = k := by
  apply repr_injective
  have hd := congrArg String.data h
  simp only [callIdent, String.data_append] at hd
  have := List.append_cancel_left hd
  exact String.ext this

theorem handlePush_callID (b : Bridge) (msg : JObj) :
    (b.handlePush msg).1.callID = b.callID := by
  unfold Bridge.handlePush
  simp only []
  split_ifs <;> (try split) <;> rfl

theorem handleMessage_callID (b : Bridge) (data : Option JObj) :
    (b.handleMessage data).1.callID = b.callID := by
  cases data with
  | none => rfl
  | some msg =>
    cases hr : b.replyTarget msg with
    | none => rw [handleMessage_push b msg hr]; exact handlePush_callID b msg
    | some t =>
      obtain ⟨id, pc⟩ := t
      rw [handleMessage_reply b msg id pc hr]

theorem wrapInt64_of_range (x : Int) (h0 : -9223372036854775808 ≤ x)
    (h1 : x < 9223372036854775808) : wrapInt64 x = x := by
  unfold wrapInt64
  omega

/-- The counter after one step: only the registration of a call changes it. -/
theorem step_callID (b : Bridge) (a : Action) :
    (b.step a).1.callID
      = match a with
        | Action.callRegister _ _ => wrapInt64 (b.callID + 1)
        | _ => b.callID := by
  cases a with
  | callRegister msgType params => rfl
  | accept conn => rfl
  | message data => exact handleMessage_callID b data
  | loopExit conn =>
    simp only [Bridge.step, Bridge.handleWebSocketExit]
    by_cases hc : b.client = some conn
    · rw [if_pos hc]
    · rw [if_neg hc]
  | callFinish id => rfl
  | stop =>
    simp only [Bridge.step, Bridge.Stop]
    cases b.client <;> rfl

/-- The counter after a run that stays below `2^63`: one more per invocation. -/
theorem run_callID (b : Bridge) (acts : List Action) (h0 : 0 ≤ b.callID)
    (hb : b.callID + (callCount acts : Int) < 9223372036854775808) :
    (b.run acts).1.callID = b.callID + (callCount acts : Int) := by
  induction acts generalizing b with
  | nil => simp [Bridge.run, callCount]
  | cons a as ih =>
    have hs := step_callID b a
    cases a with
    | callRegister msgType params =>
      simp only [callCount, Nat.cast_add, Nat.cast_one] at hb ⊢
      simp only [] at hs
      rw [wrapInt64_of_range _ (by omega) (by omega)] at hs
      simp only [Bridge.run]
      rw [ih _ (by rw [hs]; omega) (by rw [hs]; omega), hs]
      omega
    | accept conn =>
      simp only [callCount] at hb ⊢
      simp only [] at hs
      simp only [Bridge.run]
      rw [ih _ (by rw [hs]; exact h0) (by rw [hs]; exact hb), hs]
    | message data =>
      simp only [callCount] at hb ⊢
      simp only [] at hs
      simp only [Bridge.run]
      rw [ih _ (by rw [hs]; exact h0) (by rw [hs]; exact hb), hs]
    | loopExit conn =>
      simp only [callCount] at hb ⊢
      simp only [] at hs
      simp only [Bridge.run]
      rw [ih _ (by rw [hs]; exact h0) (by rw [hs]; exact hb), hs]
    | callFinish id =>
      simp only [callCount] at hb ⊢
      simp only [] at hs
      simp only [Bridge.run]
      rw [ih _ (by rw [hs]; exact h0) (by rw [hs]; exact hb), hs]
    | stop =>
      simp only [callCount] at hb ⊢
      simp only [] at hs
      simp only [Bridge.run]
      rw [ih _ (by rw [hs]; exact h0) (by rw [hs]; exact hb), hs]

/-- A run without invocation of `Call` leaves the counter alone. -/
theorem run_callID_of_no_call (b : Bridge) (acts : List Action) (h : callCount acts = 0) :
    (b.run acts).1.callID = b.callID := by
  induction acts generalizing b with
  | nil => rfl
  | cons a as ih =>
    have hs := step_callID b a
    cases a with
    | callRegister msgType params => simp [callCount] at h
    | accept conn =>
      simp only [callCount] at h
      simp only [] at hs
      simp only [Bridge.run]
      rw [ih _ h, hs]
    | message data =>
      simp only [callCount] at h
      simp only [] at hs
      simp only [Bridge.run]
      rw [ih _ h, hs]
    | loopExit conn =>
      simp only [callCount] at h
      simp only [] at hs
      simp only [Bridge.run]
      rw [ih _ h, hs]
    | callFinish id =>
      simp only [callCount] at h
      simp only [] at hs
      simp only [Bridge.run]
      rw [ih _ h, hs]
    | stop =>
      simp only [callCount] at h
      simp only [] at hs
      simp only [Bridge.run]
      rw [ih _ h, hs]

/-- The identifiers allocated in a run that stays below `2^63`. -/
theorem allocated_eq (b : Bridge) (acts : List Action) (h0 : 0 ≤ b.callID)
    (hb : b.callID + (callCount acts : Int) < 9223372036854775808) :
    b.allocated acts
      = (List.range (callCount acts)).map
          (fun (i : Nat) => callIdent (b.callID + (i : Int) + 1)) := by
  induction acts generalizing b with
  | nil => rfl
  | cons a as ih =>
    have hs := step_callID b a
    cases a with
    | callRegister msgType params =>
      simp only [callCount, Nat.cast_add, Nat.cast_one] at hb
      have hw : wrapInt64 (b.callID + 1) = b.callID + 1 :=
        wrapInt64_of_range _ (by omega) (by omega)
      have hid : (b.callRegister msgType params).2.id = callIdent (b.callID + 1) := by
        show callIdent (wrapInt64 (b.callID + 1)) = _
        rw [hw]
      have hcid : (b.callRegister msgType params).1.callID = b.callID + 1 := by
        show wrapInt64 (b.callID + 1) = _
        exact hw
      simp only [Bridge.allocated, callCount]
      rw [ih _ (by rw [hcid]; omega) (by rw [hcid]; omega), hid, hcid,
        List.range_succ_eq_map, List.map_cons, List.map_map]
      congr 1
      · simp
      · apply List.map_congr_left
        intro i _
        simp only [Function.comp, Nat.cast_succ]
        congr 1
        omega
    | accept conn =>
      simp only [callCount] at hb
      simp only [] at hs
      simp only [Bridge.allocated, callCount]
      rw [ih _ (by rw [hs]; exact h0) (by rw [hs]; exact hb), hs]
    | message data =>
      simp only [callCount] at hb
      simp only [] at hs
      simp only [Bridge.allocated, callCount]
      rw [ih _ (by rw [hs]; exact h0) (by rw [hs]; exact hb), hs]
    | loopExit conn =>
      simp only [callCount] at hb
      simp only [] at hs
      simp only [Bridge.allocated, callCount]
      rw [ih _ (by rw [hs]; exact h0) (by rw [hs]; exact hb), hs]
    | callFinish id =>
      simp only [callCount] at hb
      simp only [] at hs
      simp only [Bridge.allocated, callCount]
      rw [ih _ (by rw [hs]; exact h0) (by rw [hs]; exact hb), hs]
    | stop =>
      simp only [callCount] at hb
      simp only [] at hs
      simp only [Bridge.allocated, callCount]
      rw [ih _ (by rw [hs]; exact h0) (by rw [hs]; exact hb), hs]

theorem callCount_replicate (n : Nat) (msgType : String) (params : JObj) :
    callCount (List.replicate n (Action.callRegister msgType params)) = n := by
  induction n with
  | zero => rfl
  | succ n ih => simp [List.replicate_succ, callCount, ih]

theorem startBridge_callID (wsPort mcpPort : Int) :
    (App.startBridge wsPort mcpPort).callID = 0 := by
  unfold App.startBridge
  split_ifs <;> rfl

theorem canonicalTool_name {t : JVal} {tool : Tool} (h : canonicalTool t = some tool) :
    tool.Name ≠ "" := by
  cases t with
  | obj element =>
    simp only [canonicalTool] at h
    split_ifs at h with hn
    obtain rfl := Option.some.inj h
    exact hn
  | null => simp [canonicalTool] at h
  | bool x => simp [canonicalTool] at h
  | num x => simp [canonicalTool] at h
  | str x => simp [canonicalTool] at h
  | arr x => simp [canonicalTool] at h

theorem mcpToolsLoop_eq (acc : List JVal) (tools : List Tool) :
    tools.foldl mcpToolsLoopBody acc = acc ++ tools.map toolDescriptor := by
  induction tools generalizing acc with
  | nil => simp
  | cons t ts ih =>
    rw [List.foldl_cons, ih]
    cases hp : t.Parameters <;>
      simp [mcpToolsLoopBody, toolDescriptor, hp]

/-! ## Lemmas on replies and on `Call` -/

theorem replyTarget_some (b : Bridge) (msg : JObj) (id : String) (pc : PendingCall) :
    b.replyTarget msg = some (id, pc)
      ↔ asString (jget msg "id") = some id ∧ List.lookup id b.pending = some pc := by
  unfold Bridge.replyTarget
  cases hi : asString (jget msg "id") with
  | none => simp
  | some i =>
    cases hl : List.lookup i b.pending with
    | none =>
      simp only [hl, Option.some.injEq]
      constructor
      · intro h
        exact Option.noConfusion h
      · rintro ⟨h1, h2⟩
        rw [← h1, hl] at h2
        exact Option.noConfusion h2
    | some q =>
      simp only [hl, Option.some.injEq, Prod.mk.injEq]
      constructor
      · rintro ⟨rfl, rfl⟩
        exact ⟨rfl, hl⟩
      · rintro ⟨rfl, h2⟩
        rw [hl] at h2
        exact ⟨rfl, Option.some.inj h2⟩

theorem replyTarget_none (b : Bridge) (msg : JObj) :
    b.replyTarget msg = none
      ↔ ∀ id, asString (jget msg "id") = some id → List.lookup id b.pending = none := by
  unfold Bridge.replyTarget
  cases hi : asString (jget msg "id") with
  | none => simp
  | some i =>
    cases hl : List.lookup i b.pending with
    | none =>
      simp only [hl, true_iff, Option.some.injEq]
      intro id hid
      rw [← hid]
      exact hl
    | some q =>
      simp only [hl, Option.some.injEq]
      constructor
      · intro h
        exact Option.noConfusion h
      · intro h
        have h2 := h i rfl
        rw [hl] at h2
        exact Option.noConfusion h2

/-- What a reply sends to the call it answers. -/
theorem handleMessage_reply_effects (b : Bridge) (msg : JObj) (id : String)
    (pc : PendingCall) (h : b.replyTarget msg = some (id, pc)) :
    (b.handleMessage (some msg)).2
      = match asString (jget msg "error") with
        | some errMsg => [Effect.sendError pc { msg := errMsg }]
        | none => [Effect.sendResult pc (jget msg "result")] := by
  simp only [Bridge.handleMessage, h]
  cases asString (jget msg "error") with
  | some e => rfl
  | none =>
    simp only []
    cases jget msg "result" <;> rfl

theorem mem_readyCases (sent : List Effect) (pc : PendingCall) (t : Bool) (c : SelectCase)
    (h : c ∈ readyCases sent pc t) :
    (∃ data, c = SelectCase.result data ∧ Effect.sendResult pc data ∈ sent)
      ∨ (∃ err, c = SelectCase.error err ∧ Effect.sendError pc err ∈ sent)
      ∨ (c = SelectCase.timer ∧ t = true) := by
  unfold readyCases at h
  rcases List.mem_append.1 h with h1 | h2
  · obtain ⟨e, he, hc⟩ := List.mem_filterMap.1 h1
    cases e with
    | sendResult q data =>
      by_cases hq : q = pc
      · simp only [hq, if_true, Option.some.injEq] at hc
        exact Or.inl ⟨data, hc.symm, hq ▸ he⟩
      · simp [hq] at hc
    | sendError q err =>
      by_cases hq : q = pc
      · simp only [hq, if_true, Option.some.injEq] at hc
        exact Or.inr (Or.inl ⟨err, hc.symm, hq ▸ he⟩)
      · simp [hq] at hc
    | writeControl _ _ _ => simp at hc
    | close _ => simp at hc
    | writeMessage _ _ => simp at hc
    | onConnect => simp at hc
    | onDisconnect => simp at hc
  · cases t with
    | true =>
      simp only [if_true, List.mem_singleton] at h2
      exact Or.inr (Or.inr ⟨h2, rfl⟩)
    | false => simp at h2

theorem readyCases_of_no_delivery (sent : List Effect) (pc : PendingCall) (t : Bool)
    (h : sent.any (Effect.deliversTo pc) = false) :
    readyCases sent pc t = (if t then [SelectCase.timer] else []) := by
  unfold readyCases
  have : sent.filterMap (fun e =>
      match e with
      | Effect.sendResult q data => if q = pc then some (SelectCase.result data) else none
      | Effect.sendError q err => if q = pc then some (SelectCase.error err) else none
      | _ => none) = [] := by
    rw [List.filterMap_eq_nil_iff]
    intro e he
    have hd : e.deliversTo pc = false := by
      rw [List.any_eq_false] at h
      simpa using h e he
    cases e <;> simp [Effect.deliversTo] at hd ⊢ <;> exact hd
  rw [this, List.nil_append]

theorem handlePush_no_delivery (b : Bridge) (msg : JObj) :
    (b.handlePush msg).2.any Effect.isDelivery = false := by
  unfold Bridge.handlePush
  simp only []
  split_ifs <;> (try split) <;> rfl

theorem callFinish_of_absent (c : Bridge) (id : String)
    (h : List.lookup id c.pending = none) : c.callFinish id = c := by
  unfold Bridge.callFinish
  rw [mapDelete_of_lookup_none c.pending id h]

theorem readyCases_timer_ne_nil (sent : List Effect) (pc : PendingCall) :
    0 < (readyCases sent pc true).length := by
  unfold readyCases
  rw [List.length_append]
  simp

/-! ## Lemmas on request maps -/

theorem lookup_of_not_mem_keys {α : Type} (m : List (String × α)) (k : String)
    (h : k ∉ m.map Prod.fst) : List.lookup k m = none := by
  induction m with
  | nil => rfl
  | cons kv rest ih =>
    obtain ⟨k0, v0⟩ := kv
    simp only [List.map_cons, List.mem_cons, not_or] at h
    have hne : (k == k0) = false := by
      rw [beq_eq_false_iff_ne]
      exact h.1
    rw [List.lookup_cons, hne]
    exact ih h.2

theorem lookup_of_mem_nodup {α : Type} (m : List (String × α)) (k : String) (v : α)
    (hn : (m.map Prod.fst).Nodup) (h : (k, v) ∈ m) : List.lookup k m = some v := by
  induction m with
  | nil => simp at h
  | cons kv rest ih =>
    obtain ⟨k0, v0⟩ := kv
    rw [List.map_cons, List.nodup_cons] at hn
    rcases List.mem_cons.1 h with heq | hmem
    · obtain ⟨rfl, rfl⟩ := Prod.mk.inj heq
      simp [List.lookup_cons]
    · have hk : k ≠ k0 := by
        intro hkk
        apply hn.1
        rw [← hkk]
        exact List.mem_map.2 ⟨(k, v), hmem, rfl⟩
      have hne : (k == k0) = false := by
        rw [beq_eq_false_iff_ne]
        exact hk
      rw [List.lookup_cons, hne]
      exact ih hn.2 hmem

/-- A field of the request map that `Call` builds: the entry of the parameters when
they have one for the key, the field of the base map otherwise. -/
theorem jget_foldl_mapSet (p base : JObj) (k : String) (hn : (p.map Prod.fst).Nodup) :
    jget (p.foldl (fun m kv => mapSet m kv.1 kv.2) base) k
      = match List.lookup k p with
        | some v => some v
        | none => jget base k := by
  induction p generalizing base with
  | nil => rfl
  | cons kv rest ih =>
    obtain ⟨k0, v0⟩ := kv
    rw [List.map_cons, List.nodup_cons] at hn
    rw [List.foldl_cons, ih _ hn.2]
    by_cases hk : k = k0
    · subst hk
      have hrest : List.lookup k rest = none := lookup_of_not_mem_keys rest k hn.1
      simp only [hrest, List.lookup_cons, beq_self_eq_true]
      exact lookup_mapSet_self base k v0
    · have hne : (k == k0) = false := by
        rw [beq_eq_false_iff_ne]
        exact hk
      rw [List.lookup_cons, hne]
      cases List.lookup k rest with
      | some v => rfl
      | none => exact lookup_mapSet_ne base k0 k v0 hk

/-- A field of the argument map that `handleQuery` builds. -/
theorem jget_queryArgs (query : Values) (acc : JObj) (k : String)
    (hn : (query.map Prod.fst).Nodup) :
    jget (query.foldl queryArgsLoopBody acc) k
      = if k = "collection" then jget acc k
        else match List.lookup k query with
          | some (x :: _) => some (JVal.str x)
          | _ => jget acc k := by
  induction query generalizing acc with
  | nil =>
    by_cases hk : k = "collection"
    · simp [hk]
    · simp [hk]
  | cons kv rest ih =>
    obtain ⟨k0, vs⟩ := kv
    rw [List.map_cons, List.nodup_cons] at hn
    rw [List.foldl_cons, ih _ hn.2]
    by_cases hk : k = "collection"
    · rw [if_pos hk, if_pos hk]
      cases vs with
      | nil => rfl
      | cons x xs =>
        by_cases h0 : k0 = "collection"
        · simp [queryArgsLoopBody, h0]
        · simp only [queryArgsLoopBody, ne_eq, h0, not_false_eq_true, if_true]
          exact lookup_mapSet_ne acc k0 k (JVal.str x) (by rw [hk]; exact fun h => h0 h.symm)
    · rw [if_neg hk, if_neg hk]
      by_cases hkk : k = k0
      · subst hkk
        have hrest : List.lookup k rest = none := lookup_of_not_mem_keys rest k hn.1
        simp only [hrest, List.lookup_cons, beq_self_eq_true]
        cases vs with
        | nil => rfl
        | cons x xs =>
          simp only [queryArgsLoopBody, ne_eq, hk, not_false_eq_true, if_true]
          exact lookup_mapSet_self acc k (JVal.str x)
      · have hne : (k == k0) = false := by
          rw [beq_eq_false_iff_ne]
          exact hkk
        have hacc : jget (queryArgsLoopBody acc (k0, vs)) k = jget acc k := by
          cases vs with
          | nil => rfl
          | cons x xs =>
            by_cases h0 : k0 = "collection"
            · simp [queryArgsLoopBody, h0]
            · simp only [queryArgsLoopBody, ne_eq, h0, not_false_eq_true, if_true]
              exact lookup_mapSet_ne acc k0 k (JVal.str x) hkk
        rw [List.lookup_cons, hne, hacc]

theorem Call_effects_head (b : Bridge) (msgType : String) (params : JObj)
    (writeErr : Option GoError) (during : List Action) (timerFired : Bool) (choice : Nat)
    (conn : Conn) (hc : b.client = some conn) (r : CallReturn)
    (hr : b.Call msgType params writeErr during timerFired choice = some r) :
    ∃ rest, r.effects
      = Effect.writeMessage conn (b.callRegister msgType params).2.msg :: rest := by
  have hsend : ((b.callRegister msgType params).1.send
      (b.callRegister msgType params).2.msg writeErr).2
        = [Effect.writeMessage conn (b.callRegister msgType params).2.msg] := by
    simp [Bridge.send, Bridge.callRegister, hc]
  unfold Bridge.Call at hr
  simp only [] at hr
  split at hr
  · obtain rfl := Option.some.inj hr
    exact ⟨[], hsend⟩
  · split at hr
    · obtain rfl := Option.some.inj hr
      exact ⟨_, by simp only [hsend]; rfl⟩
    · exact Option.noConfusion hr

/-- What `handleQuery` does when a connection is installed and the collection is not
empty: it is the tool call, translated. -/
theorem handleQuery_connected (a : App) (b : Bridge) (query : Values) (env : CallEnv)
    (conn : Conn) (hb : a.bridge = some b) (hc : b.client = some conn)
    (hne : Values.Get query "collection" ≠ "") :
    a.handleQuery query env
      = match b.ExecuteTool (Values.Get query "collection" ++ "_find")
          (some (query.foldl queryArgsLoopBody [])) env with
        | none => none
        | some r =>
          match r.err with
          | some err =>
            some { response := httpError ("\x7b\"error\":\"" ++ err.msg ++ "\"\x7d") 502,
                   state := { a with bridge := some r.bridge }, effects := r.effects }
          | none =>
            some { response := { status := 200, body := Body.raw r.payload },
                   state := { a with bridge := some r.bridge }, effects := r.effects } := by
  have hcon : a.IsConnected = true := by
    simp [App.IsConnected, hb, Bridge.IsConnected, hc]
  simp only [App.handleQuery, hcon, Bool.not_true, Bool.false_eq_true, if_false, hne, hb]

/-! ## Lemmas on the gateways -/

/-- With no connection installed `Call` fails at the send, after it has allocated its
identifier and registered and removed its entry. -/
theorem Call_not_connected (b : Bridge) (msgType : String) (params : JObj)
    (writeErr : Option GoError) (during : List Action) (timerFired : Bool) (choice : Nat)
    (hc : b.client = none) :
    b.Call msgType params writeErr during timerFired choice
      = some { bridge := (b.callRegister msgType params).1.callFinish
                 (b.callRegister msgType params).2.id,
               payload := none, err := some { msg := "not connected" }, effects := [] } := by
  have hsend : (b.callRegister msgType params).1.send (b.callRegister msgType params).2.msg
      writeErr = (some { msg := "not connected" }, []) := by
    simp [Bridge.send, Bridge.callRegister, hc]
  simp only [Bridge.Call, hsend]

theorem App_connected (a : App) (h : a.IsConnected = true) :
    ∃ b conn, a.bridge = some b ∧ b.client = some conn := by
  unfold App.IsConnected at h
  cases hb : a.bridge with
  | none => simp [hb] at h
  | some b =>
    simp only [hb, Bridge.IsConnected] at h
    cases hc : b.client with
    | none => simp [hc] at h
    | some conn => exact ⟨b, conn, rfl, hc⟩

/-- The `tools/call` case of `handleStateless` for a name that is not empty. -/
theorem handleStateless_toolsCall (b : Bridge) (req : RPCRequest) (render : JVal → String)
    (env : CallEnv) (name : String) (hm : req.Method = "tools/call")
    (hname : asString (jget (req.Params.getD []) "name") = some name) (hne : name ≠ "") :
    MCPServer.handleStateless b "POST" (some req) render env
      = match MCPServer.executeTool b name (asObj (jget (req.Params.getD []) "arguments"))
          render env with
        | none => none
        | some out =>
          match out.err with
          | some err =>
            some { response := MCPServer.jsonRPCError req.ID (-32000) err.msg,
                   state := out.bridge, effects := out.effects }
          | none =>
            some { response := { status := 200, body := Body.json (JVal.obj
                     [("jsonrpc", JVal.str "2.0"), ("id", req.ID),
                      ("result", JVal.obj
                        [("content", JVal.arr []),
                         ("structuredContent", mapValue out.structured)])]) },
                   state := out.bridge, effects := out.effects } := by
  have h1 : ¬ ("tools/call" = "initialize") := by decide
  have h2 : ¬ ("tools/call" = "notifications/initialized") := by decide
  have h3 : ¬ ("tools/call" = "tools/list") := by decide
  simp only [MCPServer.handleStateless, ne_eq, not_true_eq_false, if_false, hm, h1, h2, h3,
    if_true, hname, Option.getD_some, hne]

/-- What `executeTool` makes of a call that returned without error: the payload itself
when it is a JSON object, a nil map when it is `null`, and the text wrapper for every
other payload. -/
theorem executeTool_structured (b : Bridge) (name : String) (args : Option JObj)
    (render : JVal → String) (env : CallEnv) (r : CallReturn)
    (hr : b.ExecuteTool name args env = some r) (he : r.err = none) :
    MCPServer.executeTool b name args render env
      = some { structured :=
                 match r.payload with
                 | some (JVal.obj m) => some m
                 | some JVal.null => none
                 | other => some [("text", JVal.str (rawText render other))],
               err := none, bridge := r.bridge, effects := r.effects } := by
  simp only [MCPServer.executeTool, hr, he]
  cases hp : r.payload with
  | none => rfl
  | some v => cases v <;> rfl

/-- What `Call` returns once its request was written without error: the steps taken
meanwhile start from the state in which the call is registered. -/
theorem Call_after_send (b : Bridge) (msgType : String) (params : JObj)
    (during : List Action) (timerFired : Bool) (choice : Nat) (conn : Conn)
    (hc : b.client = some conn) (r : CallReturn)
    (hr : b.Call msgType params none during timerFired choice = some r) :
    r.bridge = ((b.callRegister msgType params).1.run during).1.callFinish
        (b.callRegister msgType params).2.id
      ∧ r.effects = Effect.writeMessage conn (b.callRegister msgType params).2.msg
          :: ((b.callRegister msgType params).1.run during).2 := by
  have hsend : (b.callRegister msgType params).1.send (b.callRegister msgType params).2.msg
      none = (none, [Effect.writeMessage conn (b.callRegister msgType params).2.msg]) := by
    simp [Bridge.send, Bridge.callRegister, hc]
  simp only [Bridge.Call, hsend] at hr
  split at hr
  · obtain rfl := Option.some.inj hr
    exact ⟨rfl, rfl⟩
  · exact Option.noConfusion hr

/-- A reply that is handled right after the request was written finds the call
registered and resolves it. -/
theorem Call_immediate_reply (b : Bridge) (msgType : String) (params : JObj) (choice : Nat)
    (conn : Conn) (reply : JObj) (hc : b.client = some conn)
    (hid : asString (jget reply "id") = some (b.callRegister msgType params).2.id)
    (he : asString (jget reply "error") = none) :
    ∃ r, b.Call msgType params none [Action.message (some reply)] false choice = some r
      ∧ r.payload = jget reply "result" ∧ r.err = none
      ∧ r.effects = [Effect.writeMessage conn (b.callRegister msgType params).2.msg,
          Effect.sendResult (b.callRegister msgType params).2.pending (jget reply "result")]
      ∧ List.lookup (b.callRegister msgType params).2.id r.bridge.pending = none := by
  have hsend : (b.callRegister msgType params).1.send (b.callRegister msgType params).2.msg
      none = (none, [Effect.writeMessage conn (b.callRegister msgType params).2.msg]) := by
    simp [Bridge.send, Bridge.callRegister, hc]
  have hlook : List.lookup (b.callRegister msgType params).2.id
      (b.callRegister msgType params).1.pending
        = some (b.callRegister msgType params).2.pending := lookup_mapSet_self _ _ _
  have htarget : (b.callRegister msgType params).1.replyTarget reply
      = some ((b.callRegister msgType params).2.id, (b.callRegister msgType params).2.pending) :=
    (replyTarget_some _ reply _ _).2 ⟨hid, hlook⟩
  have heff : ((b.callRegister msgType params).1.handleMessage (some reply)).2
      = [Effect.sendResult (b.callRegister msgType params).2.pending (jget reply "result")] := by
    rw [handleMessage_reply_effects _ reply _ _ htarget, he]
  have hrun : ((b.callRegister msgType params).1.run [Action.message (some reply)]).2
      = [Effect.sendResult (b.callRegister msgType params).2.pending (jget reply "result")] := by
    simp only [Bridge.run, Bridge.step, heff, List.append_nil]
  have hready : readyCases
      [Effect.sendResult (b.callRegister msgType params).2.pending (jget reply "result")]
      (b.callRegister msgType params).2.pending false
        = [SelectCase.result (jget reply "result")] := by
    simp [readyCases]
  simp only [Bridge.Call, hsend, hrun, hready, List.length_singleton, Nat.mod_one,
    List.getElem?_cons_zero]
  exact ⟨_, rfl, rfl, rfl, rfl, lookup_mapDelete_self _ _⟩

/-! ## Lemmas on URLs -/

theorem urlHostChars_of_no_delimiter (cs : List Char)
    (h : cs.all (fun c => !(c == '/' || c == '?' || c == '#' || c == '@' || c == ':')) = true) :
    urlHostChars cs = cs := by
  rw [List.all_eq_true] at h
  have h1 : cs.takeWhile (fun c => !(c == '/' || c == '?' || c == '#')) = cs := by
    rw [List.takeWhile_eq_self_iff]
    intro x hx
    have := h x hx
    simp only [Bool.not_eq_true', Bool.or_eq_false_iff] at this ⊢
    exact ⟨⟨this.1.1.1.1, this.1.1.1.2⟩, this.1.1.2⟩
  have h2 : cs.reverse.takeWhile (fun c => c != '@') = cs.reverse := by
    rw [List.takeWhile_eq_self_iff]
    intro x hx
    have := h x (List.mem_reverse.1 hx)
    simp only [Bool.not_eq_true', Bool.or_eq_false_iff] at this
    simp only [bne, this.1.2, Bool.not_false]
  have h3 : cs.takeWhile (fun c => c != ':') = cs := by
    rw [List.takeWhile_eq_self_iff]
    intro x hx
    have := h x hx
    simp only [Bool.not_eq_true', Bool.or_eq_false_iff] at this
    simp only [bne, this.2, Bool.not_false]
  unfold urlHostChars
  simp only [h1, h2, List.reverse_reverse, h3]

theorem urlHost_of_no_delimiter (rest : String) (h : noUrlDelimiter rest = true) :
    urlHost ("https://" ++ rest) = rest := by
  unfold urlHost
  have hd : ("https://" ++ rest).data.drop 8 = rest.data := by
    rw [String.data_append]
    exact List.drop_left' (by decide)
  rw [hd, urlHostChars_of_no_delimiter rest.data h]

/-! ## Theorems -/

/-- C1 (counterexample): on the started bridge on which connection 1 was accepted and
no push was handled yet, `IsConnected()` is true although the connected flag is false. -/
theorem IsConnected_differs_from_flag :
    acceptedBridge.IsConnected = true ∧ acceptedBridge.connected = false := by
  decide

/-- C1 (amended): `IsConnected()` is whether a connection is installed.  It is true
from the acceptance of a connection on, whatever frames are handled and whether or not
a capability push was among them, and false once the read loop of the installed
connection has exited. -/
theorem IsConnected_is_socket_presence (b : Bridge) (conn : Conn)
    (frames : List (Option JObj)) :
    b.IsConnected = b.client.isSome
      ∧ ((b.handleWebSocketAccept conn).1.handleAll frames).1.IsConnected = true
      ∧ (((b.handleWebSocketAccept conn).1.handleAll frames).1.handleWebSocketExit
          conn).1.IsConnected = false := by
  refine ⟨rfl, ?_, ?_⟩
  · simp [Bridge.IsConnected, handleAll_client, Bridge.handleWebSocketAccept]
  · simp [Bridge.IsConnected, Bridge.handleWebSocketExit, handleAll_client,
      Bridge.handleWebSocketAccept]

/-- C2 (counterexample): on the live bridge, where connection 1 is installed and
`call_1` and `call_2` are pending, the exit of the read loop of connection 1 leaves
both calls in the pending map and sends nothing on their channels; with its timer
fired, the select of `call_1` can only return the `timeout` error. -/
theorem loop_exit_fails_no_call :
    liveBridge.client = some 1
      ∧ (liveBridge.handleWebSocketExit 1).1.pending
          = [("call_2", { addr := 2 }), ("call_1", { addr := 1 })]
      ∧ (liveBridge.handleWebSocketExit 1).2.any Effect.isDelivery = false
      ∧ (readyCases (liveBridge.handleWebSocketExit 1).2 { addr := 1 } true).map callSelect
          = [(none, some { msg := "timeout" })] := by
  refine ⟨by decide, by decide, by decide, by rfl⟩

/-- C2 (amended): the exit of a read loop leaves the pending map unchanged and sends
nothing on the channels of any pending call, so it makes no case of the select of any
call ready; of the effects of the exit alone, a blocked caller whose timer fires
observes the `timeout` error and no payload. -/
theorem loop_exit_keeps_pending (b : Bridge) (conn : Conn) (sent : List Effect)
    (pc : PendingCall) (timerFired : Bool) :
    (b.handleWebSocketExit conn).1.pending = b.pending
      ∧ (b.handleWebSocketExit conn).2.any Effect.isDelivery = false
      ∧ readyCases (sent ++ (b.handleWebSocketExit conn).2) pc timerFired
          = readyCases sent pc timerFired
      ∧ (readyCases (b.handleWebSocketExit conn).2 pc true).map callSelect
          = [(none, some { msg := "timeout" })] := by
  have hd : (b.handleWebSocketExit conn).2.any Effect.isDelivery = false := by
    unfold Bridge.handleWebSocketExit
    by_cases hc : b.client = some conn
    · rw [if_pos hc]
      by_cases hw : (b.connected && b.OnDisconnect) = true
      · simp [hw, Effect.isDelivery]
      · simp [hw]
    · rw [if_neg hc]; rfl
  refine ⟨?_, hd, readyCases_append sent _ pc timerFired hd, ?_⟩
  · unfold Bridge.handleWebSocketExit
    by_cases hc : b.client = some conn
    · rw [if_pos hc]
    · rw [if_neg hc]
  · have h := readyCases_append [] (b.handleWebSocketExit conn).2 pc true hd
    rw [List.nil_append] at h
    rw [h]
    rfl

/-- C3: in every state of a started bridge in which `conn` is the installed connection,
the exit of the read loop of `conn` leaves no installed connection, no tools, no
plugins and the connected flag false, and invokes the disconnect callback exactly once
when the flag was true before and not at all when it was false. -/
theorem loop_exit_of_installed_clears (b : Bridge) (conn : Conn) (hr : Reachable b)
    (hc : b.client = some conn) :
    (b.handleWebSocketExit conn).1.client = none
      ∧ (b.handleWebSocketExit conn).1.tools = []
      ∧ (b.handleWebSocketExit conn).1.plugins = []
      ∧ (b.handleWebSocketExit conn).1.connected = false
      ∧ disconnectCount (b.handleWebSocketExit conn).2 = (if b.connected then 1 else 0) := by
  obtain ⟨h1, h2, _⟩ := reachable_inv b hr
  unfold Bridge.handleWebSocketExit
  rw [if_pos hc]
  refine ⟨rfl, rfl, rfl, rfl, ?_⟩
  cases hcon : b.connected
  · simp [disconnectCount]
  · have ho : b.OnDisconnect = true := by rw [h2]; exact h1 hcon
    simp [disconnectCount, ho, Effect.isDisconnect]

/-- C3 (witness): the live bridge, whose flag is true, at the exit of connection 1. -/
theorem loop_exit_of_installed_clears_witness :
    (liveBridge.handleWebSocketExit 1).1.client = none
      ∧ (liveBridge.handleWebSocketExit 1).1.tools = []
      ∧ (liveBridge.handleWebSocketExit 1).1.plugins = []
      ∧ (liveBridge.handleWebSocketExit 1).1.connected = false
      ∧ disconnectCount (liveBridge.handleWebSocketExit 1).2
          = (if liveBridge.connected then 1 else 0) :=
  loop_exit_of_installed_clears liveBridge 1 ⟨9848, 9850, _, rfl⟩ (by decide)

/-- C4: when the read loop of `conn` exits while a different connection `other` is
installed, the installed connection, the tools, the plugins and the connected flag
are unchanged (the whole bridge is) and no disconnect callback is invoked (the exit
has no effect at all). -/
theorem loop_exit_of_superseded_is_noop (b : Bridge) (conn other : Conn)
    (hc : b.client = some other) (hne : other ≠ conn) :
    (b.handleWebSocketExit conn).1.client = some other
      ∧ (b.handleWebSocketExit conn).1.tools = b.tools
      ∧ (b.handleWebSocketExit conn).1.plugins = b.plugins
      ∧ (b.handleWebSocketExit conn).1.connected = b.connected
      ∧ disconnectCount (b.handleWebSocketExit conn).2 = 0
      ∧ b.handleWebSocketExit conn = (b, []) := by
  have hn : ¬ b.client = some conn := by
    rw [hc]
    intro h
    exact hne (Option.some.inj h)
  unfold Bridge.handleWebSocketExit
  rw [if_neg hn]
  exact ⟨hc, rfl, rfl, rfl, rfl, rfl⟩

/-- C4 (witness): connection 2 superseded connection 1 on the live bridge, then the
read loop of connection 1 exits. -/
theorem loop_exit_of_superseded_is_noop_witness :
    ((liveBridge.handleWebSocketAccept 2).1.handleWebSocketExit 1).1.client = some 2
      ∧ ((liveBridge.handleWebSocketAccept 2).1.handleWebSocketExit 1).1.tools
          = (liveBridge.handleWebSocketAccept 2).1.tools
      ∧ ((liveBridge.handleWebSocketAccept 2).1.handleWebSocketExit 1).1.plugins
          = (liveBridge.handleWebSocketAccept 2).1.plugins
      ∧ ((liveBridge.handleWebSocketAccept 2).1.handleWebSocketExit 1).1.connected
          = (liveBridge.handleWebSocketAccept 2).1.connected
      ∧ disconnectCount ((liveBridge.handleWebSocketAccept 2).1.handleWebSocketExit 1).2 = 0
      ∧ (liveBridge.handleWebSocketAccept 2).1.handleWebSocketExit 1
          = ((liveBridge.handleWebSocketAccept 2).1, []) :=
  loop_exit_of_superseded_is_noop (liveBridge.handleWebSocketAccept 2).1 1 2 rfl (by decide)

/-- C5 (counterexample): on the live bridge (connection 1 installed, flag true, one
tool, two pending calls), accepting connection 2 and then tearing connection 1 down
leaves both calls pending with nothing sent on their channels, and leaves the tool
and the connected flag in place. -/
theorem replacement_resets_nothing :
    ((liveBridge.handleWebSocketAccept 2).1.handleWebSocketExit 1).1.pending
        = [("call_2", { addr := 2 }), ("call_1", { addr := 1 })]
      ∧ ((liveBridge.handleWebSocketAccept 2).2
          ++ ((liveBridge.handleWebSocketAccept 2).1.handleWebSocketExit 1).2).any
            Effect.isDelivery = false
      ∧ (((liveBridge.handleWebSocketAccept 2).1.handleWebSocketExit 1).1.tools.map
          (fun t => t.Name)) = ["echo_find"]
      ∧ ((liveBridge.handleWebSocketAccept 2).1.handleWebSocketExit 1).1.connected = true := by
  decide

/-- C5 (amended): when connection `B` is accepted while a different connection `A` is
installed, `A` is sent the close frame 1008 and closed and the two capability requests
go to `B`; after that and the exit of the read loop of `A`, `B` is the installed
connection, and the pending map, the tools, the plugins and the connected flag are
what they were before: the exit of `A` has no effect, so nothing is sent to a pending
call and no callback is invoked. -/
theorem replacement_closes_old_keeps_state (b : Bridge) (A B : Conn)
    (hA : b.client = some A) (hne : B ≠ A) :
    (b.handleWebSocketAccept B).2
        = [Effect.writeControl A 1008 "Replaced by new client", Effect.close A,
           Effect.writeMessage B [("type", JVal.str "get_tools")],
           Effect.writeMessage B [("type", JVal.str "get_plugins")]]
      ∧ ((b.handleWebSocketAccept B).1.handleWebSocketExit A).1.client = some B
      ∧ ((b.handleWebSocketAccept B).1.handleWebSocketExit A).1.pending = b.pending
      ∧ ((b.handleWebSocketAccept B).1.handleWebSocketExit A).1.tools = b.tools
      ∧ ((b.handleWebSocketAccept B).1.handleWebSocketExit A).1.plugins = b.plugins
      ∧ ((b.handleWebSocketAccept B).1.handleWebSocketExit A).1.connected = b.connected
      ∧ ((b.handleWebSocketAccept B).1.handleWebSocketExit A).2 = [] := by
  have hn : ¬ (some B : Option Conn) = some A := fun h => hne (Option.some.inj h)
  refine ⟨?_, ?_, ?_, ?_, ?_, ?_, ?_⟩ <;>
    simp [Bridge.handleWebSocketAccept, Bridge.handleWebSocketExit, Bridge.send, hA, hn]

/-- C5 (witness): connection 2 accepted on the live bridge, where connection 1 is
installed. -/
theorem replacement_closes_old_keeps_state_witness :
    (liveBridge.handleWebSocketAccept 2).2
        = [Effect.writeControl 1 1008 "Replaced by new client", Effect.close 1,
           Effect.writeMessage 2 [("type", JVal.str "get_tools")],
           Effect.writeMessage 2 [("type", JVal.str "get_plugins")]]
      ∧ ((liveBridge.handleWebSocketAccept 2).1.handleWebSocketExit 1).1.client = some 2
      ∧ ((liveBridge.handleWebSocketAccept 2).1.handleWebSocketExit 1).1.pending
          = liveBridge.pending
      ∧ ((liveBridge.handleWebSocketAccept 2).1.handleWebSocketExit 1).1.tools
          = liveBridge.tools
      ∧ ((liveBridge.handleWebSocketAccept 2).1.handleWebSocketExit 1).1.plugins
          = liveBridge.plugins
      ∧ ((liveBridge.handleWebSocketAccept 2).1.handleWebSocketExit 1).1.connected
          = liveBridge.connected
      ∧ ((liveBridge.handleWebSocketAccept 2).1.handleWebSocketExit 1).2 = [] :=
  replacement_closes_old_keeps_state liveBridge 1 2 (by decide) (by decide)

/-- C6 (counterexample): two reachable states with the connected flag false and a
capability set that is not empty.  On the bridge started with its callbacks, after
connection 1 was accepted and pushed one plugin, the plugin is registered; on the
bridge started with `mcpPort = 0` (no callbacks), after connection 1 was accepted and
pushed one tool, the tool is registered. -/
theorem flag_false_with_capabilities :
    (Reachable (acceptedBridge.handleMessage (some samplePluginsPush)).1
      ∧ (acceptedBridge.handleMessage (some samplePluginsPush)).1.connected = false
      ∧ (acceptedBridge.handleMessage (some samplePluginsPush)).1.plugins
          = [{ Name := "calendar", Enabled := true }])
    ∧ (Reachable ((App.startBridge 9848 0).run
          [Action.accept 1, Action.message (some sampleToolsPush)]).1
      ∧ ((App.startBridge 9848 0).run
          [Action.accept 1, Action.message (some sampleToolsPush)]).1.connected = false
      ∧ (((App.startBridge 9848 0).run
          [Action.accept 1, Action.message (some sampleToolsPush)]).1.tools.map
            (fun t => t.Name)) = ["echo_find"]) := by
  refine ⟨⟨⟨9848, 9850, [Action.accept 1, Action.message (some samplePluginsPush)], rfl⟩,
      by decide, by decide⟩,
    ⟨⟨9848, 0, _, rfl⟩, by decide, by decide⟩⟩

/-- C6 (amended): in every state of a started bridge (reached by accepting connections,
handling inbound messages, read-loop exits, and also by registering or finishing calls
and by `Stop`), if the `OnConnect` callback is set and the connected flag is false then
the tool set is empty. -/
theorem flag_false_implies_no_tools (b : Bridge) (hr : Reachable b)
    (ho : b.OnConnect = true) (hc : b.connected = false) : b.tools = [] :=
  (reachable_inv b hr).2.2 ho hc

/-- C6 (witness): the started bridge after connection 1 was accepted and pushed one
plugin. -/
theorem flag_false_implies_no_tools_witness :
    (acceptedBridge.handleMessage (some samplePluginsPush)).1.OnConnect = true
      ∧ (acceptedBridge.handleMessage (some samplePluginsPush)).1.connected = false
      ∧ (acceptedBridge.handleMessage (some samplePluginsPush)).1.tools = [] :=
  ⟨by decide, by decide,
    flag_false_implies_no_tools (acceptedBridge.handleMessage (some samplePluginsPush)).1
      ⟨9848, 9850, [Action.accept 1, Action.message (some samplePluginsPush)], rfl⟩
      (by decide) (by decide)⟩

/-- C7 (counterexample): handled while the flag is false, the plugins push on the
accepted bridge leaves the flag false and invokes no `OnConnect`; so does the tools
push on a bridge started with `mcpPort = 0`, which has no `OnConnect`. -/
theorem push_leaves_flag_false :
    acceptedBridge.connected = false
      ∧ (acceptedBridge.handleMessage (some samplePluginsPush)).1.connected = false
      ∧ connectCount (acceptedBridge.handleMessage (some samplePluginsPush)).2 = 0
      ∧ (((App.startBridge 9848 0).handleWebSocketAccept 1).1.handleMessage
          (some sampleToolsPush)).1.connected = false
      ∧ connectCount (((App.startBridge 9848 0).handleWebSocketAccept 1).1.handleMessage
          (some sampleToolsPush)).2 = 0 := by
  decide

/-- C7 (amended): a message handled while the connected flag is false sets the flag
and invokes `OnConnect`, once, exactly when the `OnConnect` callback is set and the
message is a tools push (it answers no pending call, its type is `tools` and its
`tools` field is an array); any other message, a plugins push included, leaves the
flag false and invokes no `OnConnect`. -/
theorem flag_set_by_tools_push_only (b : Bridge) (data : Option JObj)
    (hc : b.connected = false) :
    (b.handleMessage data).1.connected = (b.OnConnect && b.isToolsPush data)
      ∧ connectCount (b.handleMessage data).2
          = (if b.OnConnect && b.isToolsPush data then 1 else 0) := by
  cases h : b.isToolsPush data with
  | false =>
    obtain ⟨h1, h2⟩ := handleMessage_not_toolsPush b data h
    rw [h1, h2, hc]
    simp
  | true =>
    obtain ⟨h1, h2⟩ := handleMessage_toolsPush b data h
    rw [h1, h2, hc]
    cases ho : b.OnConnect <;> simp [connectCount, Effect.isConnect]

/-- C7 (witness): the tools push on the accepted bridge, whose flag is false. -/
theorem flag_set_by_tools_push_only_witness :
    acceptedBridge.connected = false
      ∧ (acceptedBridge.handleMessage (some sampleToolsPush)).1.connected
          = (acceptedBridge.OnConnect && acceptedBridge.isToolsPush (some sampleToolsPush))
      ∧ connectCount (acceptedBridge.handleMessage (some sampleToolsPush)).2
          = (if acceptedBridge.OnConnect && acceptedBridge.isToolsPush (some sampleToolsPush)
              then 1 else 0) :=
  ⟨by decide, flag_set_by_tools_push_only acceptedBridge (some sampleToolsPush) (by decide)⟩

/-- C8 (counterexample): the lifetime of connection 1 on the started bridge whose only
frame is a plugins push invokes no `OnConnect`; and on the live bridge, whose flag is
true, the lifetime of connection 2 (which supersedes connection 1) whose only frame is
a tools push invokes none either. -/
theorem lifetime_without_connect :
    connectCount ((App.startBridge 9848 9850).handleWebSocket 1
        [some samplePluginsPush]).2 = 0
      ∧ connectCount (liveBridge.handleWebSocket 2 [some sampleToolsPush]).2 = 0 := by
  decide

/-- C8 (amended): take a bridge with the `OnConnect` callback set and the connected
flag false, and the lifetime of a connection `conn` on it that handles the frames
`before`, then `m`, then `after`, where `m` is the first frame that is a tools push when
it is handled.  Then no frame of `before` invokes `OnConnect`, `m` invokes it (its only
effect), no frame of `after` invokes it, the whole lifetime invokes it exactly once,
and at its end the flag is false again with the callback still set, so that the same
holds for the lifetime of the next connection. -/
theorem connect_once_per_lifetime (b : Bridge) (conn : Conn)
    (before after : List (Option JObj)) (m : Option JObj)
    (ho : b.OnConnect = true) (hc : b.connected = false)
    (hfirst : ∀ p q r, before = p ++ q :: r →
      ((b.handleWebSocketAccept conn).1.handleAll p).1.isToolsPush q = false)
    (hm : ((b.handleWebSocketAccept conn).1.handleAll before).1.isToolsPush m = true) :
    connectCount ((b.handleWebSocketAccept conn).1.handleAll before).2 = 0
      ∧ (((b.handleWebSocketAccept conn).1.handleAll before).1.handleMessage m).2
          = [Effect.onConnect]
      ∧ (∀ p q r, after = p ++ q :: r →
          connectCount (((b.handleWebSocketAccept conn).1.handleAll
            (before ++ m :: p)).1.handleMessage q).2 = 0)
      ∧ connectCount (b.handleWebSocket conn (before ++ m :: after)).2 = 1
      ∧ (b.handleWebSocket conn (before ++ m :: after)).1.connected = false
      ∧ (b.handleWebSocket conn (before ++ m :: after)).1.OnConnect = true := by
  simp only [Bridge.handleWebSocket]
  have ha_on : (b.handleWebSocketAccept conn).1.OnConnect = true := ho
  have ha_c : (b.handleWebSocketAccept conn).1.connected = false := hc
  have ha_cl : (b.handleWebSocketAccept conn).1.client = some conn := rfl
  have ha_e : connectCount (b.handleWebSocketAccept conn).2 = 0 := by
    unfold Bridge.handleWebSocketAccept
    cases b.client <;> rfl
  generalize (b.handleWebSocketAccept conn).2 = ea at *
  generalize (b.handleWebSocketAccept conn).1 = a at *
  obtain ⟨hb1, hb2⟩ := handleAll_no_toolsPush a before hfirst
  have hb_on : (a.handleAll before).1.OnConnect = true := by
    rw [handleAll_callbacks]; exact ha_on
  obtain ⟨hm1, hm2⟩ := handleMessage_toolsPush (a.handleAll before).1 m hm
  rw [hb1, ha_c, hb_on] at hm1 hm2
  have hm1' : ((a.handleAll before).1.handleMessage m).1.connected = true := by
    rw [hm1]; rfl
  have hm2' : ((a.handleAll before).1.handleMessage m).2 = [Effect.onConnect] := by
    rw [hm2]; rfl
  have hstep : ∀ xs : List (Option JObj), a.handleAll (before ++ m :: xs)
      = ((((a.handleAll before).1.handleMessage m).1.handleAll xs).1,
          (a.handleAll before).2 ++ (((a.handleAll before).1.handleMessage m).2
            ++ (((a.handleAll before).1.handleMessage m).1.handleAll xs).2)) := by
    intro xs
    rw [handleAll_append]
    simp only [Bridge.handleAll]
  have hcl : (a.handleAll (before ++ m :: after)).1.client = some conn := by
    rw [handleAll_client]; exact ha_cl
  have hexit : connectCount
      ((a.handleAll (before ++ m :: after)).1.handleWebSocketExit conn).2 = 0 := by
    simp only [Bridge.handleWebSocketExit, hcl, if_true]
    by_cases hw : ((a.handleAll (before ++ m :: after)).1.connected
        && (a.handleAll (before ++ m :: after)).1.OnDisconnect) = true
    · rw [if_pos hw]; rfl
    · rw [if_neg hw]; rfl
  refine ⟨hb2, hm2', ?_, ?_, ?_, ?_⟩
  · intro p q r _
    rw [hstep p]
    exact (handleMessage_connected _ q (handleAll_connected _ p hm1').1).2
  · obtain ⟨_, hafter⟩ := handleAll_connected _ after hm1'
    rw [connectCount_append, connectCount_append, ha_e, hexit, hstep after,
      connectCount_append, connectCount_append, hb2, hm2', hafter]
    rfl
  · simp only [Bridge.handleWebSocketExit, hcl, if_true]
  · simp only [Bridge.handleWebSocketExit, hcl, if_true]
    rw [handleAll_callbacks]
    exact ha_on

/-- C8 (witness): on the started bridge, the lifetime of connection 1 that handles a
plugins push, then a tools push, then a second tools push. -/
theorem connect_once_per_lifetime_witness :
    (App.startBridge 9848 9850).OnConnect = true
      ∧ (App.startBridge 9848 9850).connected = false
      ∧ connectCount (((App.startBridge 9848 9850).handleWebSocketAccept 1).1.handleAll
          [some samplePluginsPush]).2 = 0
      ∧ ((((App.startBridge 9848 9850).handleWebSocketAccept 1).1.handleAll
          [some samplePluginsPush]).1.handleMessage (some sampleToolsPush)).2
            = [Effect.onConnect]
      ∧ connectCount ((App.startBridge 9848 9850).handleWebSocket 1
          ([some samplePluginsPush] ++ some sampleToolsPush :: [some sampleToolsPush])).2 = 1
      ∧ ((App.startBridge 9848 9850).handleWebSocket 1
          ([some samplePluginsPush] ++ some sampleToolsPush :: [some sampleToolsPush])).1.connected
            = false :=
  have h := connect_once_per_lifetime (App.startBridge 9848 9850) 1
    [some samplePluginsPush] [some sampleToolsPush] (some sampleToolsPush)
    (by decide) (by decide)
    (by
      intro p q r hpqr
      cases p with
      | nil =>
        rw [List.nil_append] at hpqr
        obtain ⟨hq, _⟩ := List.cons.inj hpqr
        rw [← hq]
        decide
      | cons x xs =>
        rw [List.cons_append] at hpqr
        obtain ⟨_, hnil⟩ := List.cons.inj hpqr
        cases xs <;> simp at hnil)
    (by decide)
  ⟨by decide, by decide, h.1, h.2.1, h.2.2.2.1, h.2.2.2.2.1⟩

/-- C9: for every message handled as a push (it answers no pending call) whose type is
`tools` and whose `tools` field is the array `toolsRaw`, the tool list after
`handleMessage` is, in input order, the canonical tool of each element that is an
object with a non-empty name, read from the `function` object of the element when it
has one and from the element itself otherwise; the other elements are dropped, and the
result does not depend on the previous tool list. -/
theorem tools_push_replaces_tools (b : Bridge) (msg : JObj) (toolsRaw : List JVal)
    (hr : b.replyTarget msg = none) (ht : getString msg "type" = "tools")
    (ha : asArr (jget msg "tools") = some toolsRaw) :
    (b.handleMessage (some msg)).1.tools = toolsRaw.filterMap canonicalTool := by
  rw [handleMessage_push b msg hr, handlePush_tools b msg toolsRaw ht ha]
  have hl := toolsLoop_eq [] toolsRaw
  rw [List.nil_append] at hl
  by_cases hc : (!b.connected && b.OnConnect) = true
  · rw [if_pos hc]; exact hl
  · rw [if_neg hc]; exact hl

/-- C9 (witness): the live bridge, which holds the tool `echo_find`, handles the push
of `mixedToolsArray`: the nested and the flat tool are registered, in that order, and
nothing else. -/
theorem tools_push_replaces_tools_witness :
    liveBridge.replyTarget mixedToolsPush = none
      ∧ (liveBridge.handleMessage (some mixedToolsPush)).1.tools
          = [{ Name := "notes_find", Description := "n", Parameters := none },
             { Name := "flat", Description := "", Parameters := some [] }] :=
  ⟨by decide,
    (tools_push_replaces_tools liveBridge mixedToolsPush mixedToolsArray
      (by decide) (by decide) rfl).trans (by rfl)⟩

/-- C10: for every message handled as a push (it answers no pending call) whose type is
`plugins` and whose `plugins` field is the array `pluginsRaw`, the plugin list after
`handleMessage` is, in input order, one plugin per element that is an object, with
`getString` of `name` and `getBool` of `enabled` (so `""` and `false` when missing or
wrongly typed), whatever the previous plugin list was, and the tool list is
unchanged. -/
theorem plugins_push_replaces_plugins (b : Bridge) (msg : JObj) (pluginsRaw : List JVal)
    (hr : b.replyTarget msg = none) (hp : getString msg "type" = "plugins")
    (ha : asArr (jget msg "plugins") = some pluginsRaw) :
    (b.handleMessage (some msg)).1.plugins = pluginsRaw.filterMap canonicalPlugin
      ∧ (b.handleMessage (some msg)).1.tools = b.tools := by
  rw [handleMessage_push b msg hr, handlePush_plugins b msg pluginsRaw hp ha]
  have hl := pluginsLoop_eq [] pluginsRaw
  rw [List.nil_append] at hl
  exact ⟨hl, rfl⟩

/-- C10 (witness): the live bridge handles the push of `mixedPluginsArray`: the two
object elements are registered, in that order, and the tool `echo_find` stays. -/
theorem plugins_push_replaces_plugins_witness :
    liveBridge.replyTarget mixedPluginsPush = none
      ∧ (liveBridge.handleMessage (some mixedPluginsPush)).1.plugins
          = [{ Name := "calendar", Enabled := true }, { Name := "", Enabled := false }]
      ∧ (liveBridge.handleMessage (some mixedPluginsPush)).1.tools = liveBridge.tools :=
  have h := plugins_push_replaces_plugins liveBridge mixedPluginsPush mixedPluginsArray
    (by decide) (by decide) rfl
  ⟨by decide, h.1.trans (by decide), h.2⟩

/-- C11 (counterexample): the accepted bridge handles a `tools` push with two elements
named `dup`: both are registered, so two tools of the registry have the same name. -/
theorem tools_push_keeps_duplicate_names :
    ((acceptedBridge.handleMessage (some duplicateToolsPush)).1.tools.map
        (fun t => (t.Name, t.Description))) = [("dup", "a"), ("dup", "b")]
      ∧ ¬ ((acceptedBridge.handleMessage (some duplicateToolsPush)).1.tools.map
        (fun t => t.Name)).Nodup := by
  decide

/-- C11 (amended): after a message handled as a `tools` push with the array `toolsRaw`,
every tool of the registry has a non-empty name, and the names of the registry are, in
order, the names of the named elements of the push: no two tools have the same name
exactly when no two named elements of the push do. -/
theorem tools_push_names (b : Bridge) (msg : JObj) (toolsRaw : List JVal)
    (hr : b.replyTarget msg = none) (ht : getString msg "type" = "tools")
    (ha : asArr (jget msg "tools") = some toolsRaw) :
    (∀ t ∈ (b.handleMessage (some msg)).1.tools, t.Name ≠ "")
      ∧ (((b.handleMessage (some msg)).1.tools.map (fun t => t.Name)).Nodup
          ↔ ((toolsRaw.filterMap canonicalTool).map (fun t => t.Name)).Nodup) := by
  have htools : (b.handleMessage (some msg)).1.tools = toolsRaw.filterMap canonicalTool := by
    rw [handleMessage_push b msg hr, handlePush_tools b msg toolsRaw ht ha]
    have hl := toolsLoop_eq [] toolsRaw
    rw [List.nil_append] at hl
    by_cases hc : (!b.connected && b.OnConnect) = true
    · rw [if_pos hc]; exact hl
    · rw [if_neg hc]; exact hl
  rw [htools]
  refine ⟨?_, Iff.rfl⟩
  intro t hmem
  obtain ⟨raw, _, hraw⟩ := List.mem_filterMap.1 hmem
  exact canonicalTool_name hraw

/-- C11 (witness): the live bridge handles the push of `mixedToolsArray`; the two tools
registered have the distinct non-empty names `notes_find` and `flat`. -/
theorem tools_push_names_witness :
    (∀ t ∈ (liveBridge.handleMessage (some mixedToolsPush)).1.tools, t.Name ≠ "")
      ∧ (((liveBridge.handleMessage (some mixedToolsPush)).1.tools.map
            (fun t => t.Name)).Nodup
          ↔ ((mixedToolsArray.filterMap canonicalTool).map (fun t => t.Name)).Nodup) :=
  tools_push_names liveBridge mixedToolsPush mixedToolsArray (by decide) (by decide) rfl

/-- C12: for every bridge state and request identifier, the `tools/list` response
carries under `result.tools` one descriptor per registry tool, in registry order, each
with the name and the description of the tool and with `inputSchema` equal to the
parameters of the tool when it has some and to the empty-object schema
`{"type":"object","properties":{}}` when it has none; and after a `tools` push the tool
has parameters exactly when the element it was read from has a `parameters` object. -/
theorem tools_list_descriptors (b : Bridge) (reqID : JVal) :
    MCPServer.handleToolsList b reqID
        = JVal.obj [("jsonrpc", JVal.str "2.0"), ("id", reqID),
            ("result", JVal.obj [("tools", JVal.arr (b.tools.map toolDescriptor))])]
      ∧ (∀ t : Tool, ∀ p : JObj, t.Parameters = some p →
          toolDescriptor t = JVal.obj [("name", JVal.str t.Name),
            ("description", JVal.str t.Description), ("inputSchema", JVal.obj p)])
      ∧ (∀ t : Tool, t.Parameters = none →
          toolDescriptor t = JVal.obj [("name", JVal.str t.Name),
            ("description", JVal.str t.Description),
            ("inputSchema", JVal.obj
              [("type", JVal.str "object"), ("properties", JVal.obj [])])])
      ∧ (∀ (msg : JObj) (toolsRaw : List JVal), b.replyTarget msg = none →
          getString msg "type" = "tools" → asArr (jget msg "tools") = some toolsRaw →
          MCPServer.handleToolsList (b.handleMessage (some msg)).1 reqID
            = JVal.obj [("jsonrpc", JVal.str "2.0"), ("id", reqID),
                ("result", JVal.obj [("tools", JVal.arr
                  ((toolsRaw.filterMap canonicalTool).map toolDescriptor))])]) := by
  have hlist : ∀ c : Bridge, MCPServer.handleToolsList c reqID
      = JVal.obj [("jsonrpc", JVal.str "2.0"), ("id", reqID),
          ("result", JVal.obj [("tools", JVal.arr (c.tools.map toolDescriptor))])] := by
    intro c
    have hl := mcpToolsLoop_eq [] c.tools
    rw [List.nil_append] at hl
    simp only [MCPServer.handleToolsList, Bridge.GetTools, hl]
  refine ⟨hlist b, ?_, ?_, ?_⟩
  · intro t p hp
    simp [toolDescriptor, hp]
  · intro t hp
    simp [toolDescriptor, hp, defaultInputSchema]
  · intro msg toolsRaw hr ht ha
    rw [hlist]
    have htools : (b.handleMessage (some msg)).1.tools
        = toolsRaw.filterMap canonicalTool := by
      rw [handleMessage_push b msg hr, handlePush_tools b msg toolsRaw ht ha]
      have hl := toolsLoop_eq [] toolsRaw
      rw [List.nil_append] at hl
      by_cases hc : (!b.connected && b.OnConnect) = true
      · rw [if_pos hc]; exact hl
      · rw [if_neg hc]; exact hl
    rw [htools]

/-- C12 (witness): the `tools/list` response of the live bridge after the push of
`mixedToolsArray`: `notes_find`, which came without parameters, gets the empty-object
schema, and `flat`, which came with the parameters `{}`, keeps them. -/
theorem tools_list_descriptors_witness :
    MCPServer.handleToolsList (liveBridge.handleMessage (some mixedToolsPush)).1
        (JVal.num "1")
      = JVal.obj [("jsonrpc", JVal.str "2.0"), ("id", JVal.num "1"),
          ("result", JVal.obj [("tools", JVal.arr
            [JVal.obj [("name", JVal.str "notes_find"), ("description", JVal.str "n"),
               ("inputSchema", JVal.obj
                 [("type", JVal.str "object"), ("properties", JVal.obj [])])],
             JVal.obj [("name", JVal.str "flat"), ("description", JVal.str ""),
               ("inputSchema", JVal.obj [])]])])] :=
  ((tools_list_descriptors liveBridge (JVal.num "1")).2.2.2 mixedToolsPush mixedToolsArray
    (by decide) (by decide) rfl).trans (by rfl)



/-- C13 (counterexample): the counter of `Call` is an `int64`.  On a started bridge the
state after `2^63 - 1` invocations has the counter `2^63 - 1`, and the next invocation,
number `2^63`, registers under `call_-9223372036854775808`; on a bridge with that
counter and a connection installed, `Call` transmits that identifier and leaves the
counter at `-2^63`.  The claim gives `call_9223372036854775808`. -/
theorem call_identifier_wraps :
    callCount (List.replicate 9223372036854775807 (Action.callRegister "sync_all" []))
        = 9223372036854775807
      ∧ (idleBridge.run
          (List.replicate 9223372036854775807 (Action.callRegister "sync_all" []))).1.callID
        = 9223372036854775807
      ∧ ((idleBridge.run
          (List.replicate 9223372036854775807 (Action.callRegister "sync_all" []))).1.callRegister
            "sync_all" []).2.id = "call_-9223372036854775808"
      ∧ ({ acceptedBridge with callID := 9223372036854775807 }.Call "sync_all" [] none []
          true 0).map (fun (r : CallReturn) => (r.bridge.callID, r.effects.map (fun e =>
            match e with
            | Effect.writeMessage _ m => asString (jget m "id")
            | _ => none)))
        = some (-9223372036854775808, [some "call_-9223372036854775808"])
      ∧ callIdent 9223372036854775808 = "call_9223372036854775808" := by
  have hcount := callCount_replicate 9223372036854775807 "sync_all" []
  have hid : (idleBridge.run
      (List.replicate 9223372036854775807 (Action.callRegister "sync_all" []))).1.callID
        = 9223372036854775807 := by
    rw [run_callID idleBridge _ (by decide) (by rw [hcount]; decide), hcount]
    decide
  refine ⟨hcount, hid, ?_, by decide, by decide⟩
  show callIdent (wrapInt64 ((idleBridge.run
      (List.replicate 9223372036854775807 (Action.callRegister "sync_all" []))).1.callID + 1))
        = "call_-9223372036854775808"
  rw [hid]
  decide

/-- C13 (amended): on the bridge of a started app, after any steps among which fewer
than `2^63 - 1` invocations of `Call` have registered, the identifiers allocated so far
are, in the order of the invocations, `call_1`, `call_2`, and so on, all different; and
the next invocation of `Call`, number `k = callCount acts + 1`, registers under
`call_k`, transmits `call_k` as the `id` of its request (when a connection is installed
and the parameters have no `id` entry) and leaves the counter at `k` when no other call
registers meanwhile.  Two identifiers `callIdent j` and `callIdent k` of natural numbers
are equal only when `j = k`. -/
theorem call_identifiers (wsPort mcpPort : Int) (acts : List Action)
    (hb : (callCount acts : Int) + 1 < 9223372036854775808) :
    (App.startBridge wsPort mcpPort).allocated acts
        = (List.range (callCount acts)).map (fun (i : Nat) => callIdent ((i : Int) + 1))
      ∧ (∀ k : Nat, k < callCount acts →
          ((App.startBridge wsPort mcpPort).allocated acts)[k]?
            = some (callIdent ((k : Int) + 1)))
      ∧ (∀ j k : Nat, callIdent j = callIdent k → j = k)
      ∧ ((App.startBridge wsPort mcpPort).allocated acts).Nodup
      ∧ (∀ (t : String) (p : JObj) (writeErr : Option GoError) (during : List Action)
          (timerFired : Bool) (choice : Nat) (r : CallReturn),
          ((App.startBridge wsPort mcpPort).run acts).1.Call t p writeErr during timerFired
            choice = some r →
          (((App.startBridge wsPort mcpPort).run acts).1.callRegister t p).2.id
              = callIdent ((callCount acts : Int) + 1)
            ∧ (callCount during = 0 → r.bridge.callID = (callCount acts : Int) + 1)
            ∧ (∀ conn, ((App.startBridge wsPort mcpPort).run acts).1.client = some conn →
                (p.map Prod.fst).Nodup → "id" ∉ p.map Prod.fst →
                ∃ msg rest, r.effects = Effect.writeMessage conn msg :: rest
                  ∧ jget msg "id"
                      = some (JVal.str (callIdent ((callCount acts : Int) + 1))))) := by
  have h0 := startBridge_callID wsPort mcpPort
  have heq : (App.startBridge wsPort mcpPort).allocated acts
      = (List.range (callCount acts)).map (fun (i : Nat) => callIdent ((i : Int) + 1)) := by
    rw [allocated_eq _ acts (by rw [h0]) (by rw [h0]; omega), h0]
    simp only [Int.zero_add]
  have hinj : ∀ j k : Nat, callIdent j = callIdent k → j = k := callIdent_injective
  have hcid : ((App.startBridge wsPort mcpPort).run acts).1.callID = (callCount acts : Int) := by
    rw [run_callID _ acts (by rw [h0]) (by rw [h0]; omega), h0, Int.zero_add]
  refine ⟨heq, ?_, hinj, ?_, ?_⟩
  · intro k hk
    rw [heq, List.getElem?_map, List.getElem?_range hk]
    rfl
  · rw [heq]
    apply List.Nodup.map _ (List.nodup_range _)
    intro i j hij
    have := hinj (i + 1) (j + 1) (by simpa using hij)
    omega
  · intro t p writeErr during timerFired choice r hr
    generalize ((App.startBridge wsPort mcpPort).run acts).1 = b at hcid hr ⊢
    have hw : wrapInt64 (b.callID + 1) = (callCount acts : Int) + 1 := by
      rw [hcid]
      exact wrapInt64_of_range _ (by omega) (by omega)
    have hid : (b.callRegister t p).2.id = callIdent ((callCount acts : Int) + 1) := by
      show callIdent (wrapInt64 (b.callID + 1)) = _
      rw [hw]
    have hreg : (b.callRegister t p).1.callID = (callCount acts : Int) + 1 := by
      show wrapInt64 (b.callID + 1) = _
      exact hw
    refine ⟨hid, ?_, ?_⟩
    · intro hd
      unfold Bridge.Call at hr
      simp only [] at hr
      split at hr
      · obtain rfl := Option.some.inj hr
        exact hreg
      · split at hr
        · obtain rfl := Option.some.inj hr
          show ((b.callRegister t p).1.run during).1.callID = _
          rw [run_callID_of_no_call _ during hd, hreg]
        · exact Option.noConfusion hr
    · intro conn hc hn hnid
      obtain ⟨rest, hrest⟩ :=
        Call_effects_head b t p writeErr during timerFired choice conn hc r hr
      refine ⟨_, rest, hrest, ?_⟩
      rw [← hid]
      show jget (p.foldl (fun m kv => mapSet m kv.1 kv.2)
        [("id", JVal.str (b.callRegister t p).2.id), ("type", JVal.str t)]) "id" = _
      rw [jget_foldl_mapSet p _ "id" hn, lookup_of_not_mem_keys p "id" hnid]
      rfl

/-- C13 (witness): on a started bridge two calls have registered, among other steps;
the identifiers allocated are `call_1` and `call_2`, and the third invocation of `Call`
registers under `call_3`. -/
theorem call_identifiers_witness :
    (App.startBridge 9848 9850).allocated
        [Action.accept 1, Action.callRegister "tool_call" [], Action.message none,
         Action.callRegister "sync_all" [], Action.callFinish "call_1"]
        = ["call_1", "call_2"]
      ∧ (((App.startBridge 9848 9850).run
          [Action.accept 1, Action.callRegister "tool_call" [], Action.message none,
           Action.callRegister "sync_all" [], Action.callFinish "call_1"]).1.callRegister
            "sync" [("plugin", JVal.str "calendar")]).2.id = "call_3" := by
  have h := call_identifiers 9848 9850
    [Action.accept 1, Action.callRegister "tool_call" [], Action.message none,
     Action.callRegister "sync_all" [], Action.callFinish "call_1"] (by decide)
  refine ⟨h.1.trans (by decide), ?_⟩
  cases hcall : ((App.startBridge 9848 9850).run
      [Action.accept 1, Action.callRegister "tool_call" [], Action.message none,
       Action.callRegister "sync_all" [], Action.callFinish "call_1"]).1.Call
        "sync" [("plugin", JVal.str "calendar")] none [] true 0 with
  | none =>
    have hs : (((App.startBridge 9848 9850).run
        [Action.accept 1, Action.callRegister "tool_call" [], Action.message none,
         Action.callRegister "sync_all" [], Action.callFinish "call_1"]).1.Call
          "sync" [("plugin", JVal.str "calendar")] none [] true 0).isSome = true := by decide
    rw [hcall] at hs
    exact absurd hs (by decide)
  | some r =>
    exact (h.2.2.2.2 "sync" [("plugin", JVal.str "calendar")] none [] true 0 r hcall).1.trans
      (by decide)

/-- C14: `Call` registers its `PendingCall` under its identifier before it transmits:
the request is written from the state `(b.callRegister msgType params).1`, in which the
entry is registered, every step taken after the write starts from that state, and a
reply that is handled right after the write finds the entry and resolves the call.
Whenever `Call` returns (failed send, result, remote error or timeout), its identifier
is absent from the pending map, and with nothing interleaved every other entry is what
it was before the call; the deferred delete changes no other entry of any pending map,
and it leaves a bridge unchanged when the identifier is already absent, as after a
reply. -/
theorem Call_pending_lifecycle (b : Bridge) (msgType : String) (params : JObj)
    (writeErr : Option GoError) (during : List Action) (timerFired : Bool) (choice : Nat) :
    List.lookup (b.callRegister msgType params).2.id (b.callRegister msgType params).1.pending
        = some (b.callRegister msgType params).2.pending
      ∧ (∀ r, b.Call msgType params writeErr during timerFired choice = some r →
          List.lookup (b.callRegister msgType params).2.id r.bridge.pending = none
            ∧ ∃ rest, r.effects
                = ((b.callRegister msgType params).1.send
                    (b.callRegister msgType params).2.msg writeErr).2 ++ rest)
      ∧ (∀ r, b.Call msgType params writeErr [] timerFired choice = some r →
          ∀ k, k ≠ (b.callRegister msgType params).2.id →
            List.lookup k r.bridge.pending = List.lookup k b.pending)
      ∧ (∀ (c : Bridge) (k : String), k ≠ (b.callRegister msgType params).2.id →
          List.lookup k (c.callFinish (b.callRegister msgType params).2.id).pending
            = List.lookup k c.pending)
      ∧ (∀ c : Bridge, List.lookup (b.callRegister msgType params).2.id c.pending = none →
          c.callFinish (b.callRegister msgType params).2.id = c)
      ∧ (∀ (conn : Conn) (r : CallReturn), b.client = some conn →
          b.Call msgType params none during timerFired choice = some r →
          r.bridge = ((b.callRegister msgType params).1.run during).1.callFinish
              (b.callRegister msgType params).2.id
            ∧ r.effects = Effect.writeMessage conn (b.callRegister msgType params).2.msg
                :: ((b.callRegister msgType params).1.run during).2)
      ∧ (∀ (conn : Conn) (reply : JObj), b.client = some conn →
          asString (jget reply "id") = some (b.callRegister msgType params).2.id →
          asString (jget reply "error") = none →
          ∃ r, b.Call msgType params none [Action.message (some reply)] false choice = some r
            ∧ r.payload = jget reply "result" ∧ r.err = none
            ∧ r.effects = [Effect.writeMessage conn (b.callRegister msgType params).2.msg,
                Effect.sendResult (b.callRegister msgType params).2.pending
                  (jget reply "result")]
            ∧ List.lookup (b.callRegister msgType params).2.id r.bridge.pending = none) := by
  refine ⟨?_, ?_, ?_, ?_, ?_,
    fun conn r hc hr => Call_after_send b msgType params during timerFired choice conn hc r hr,
    fun conn reply hc hid he =>
      Call_immediate_reply b msgType params choice conn reply hc hid he⟩
  · exact lookup_mapSet_self _ _ _
  · intro r hr
    unfold Bridge.Call at hr
    simp only [] at hr
    split at hr
    · obtain rfl := Option.some.inj hr
      exact ⟨lookup_mapDelete_self _ _, [], (List.append_nil _).symm⟩
    · split at hr
      · obtain rfl := Option.some.inj hr
        exact ⟨lookup_mapDelete_self _ _, _, rfl⟩
      · exact Option.noConfusion hr
  · intro r hr k hk
    have hreg : List.lookup k (b.callRegister msgType params).1.pending
        = List.lookup k b.pending := lookup_mapSet_ne _ _ _ _ hk
    unfold Bridge.Call at hr
    simp only [] at hr
    split at hr
    · obtain rfl := Option.some.inj hr
      exact (lookup_mapDelete_ne _ _ _ hk).trans hreg
    · split at hr
      · obtain rfl := Option.some.inj hr
        exact (lookup_mapDelete_ne _ _ _ hk).trans hreg
      · exact Option.noConfusion hr
  · intro c k hk
    exact lookup_mapDelete_ne _ _ _ hk
  · intro c hc
    exact callFinish_of_absent c _ hc

/-- C15: when `i` is pending for the call `pc`, handling a message whose `id` is the
string `i` and whose `error` is the string `e` sends on the `Error` channel of `pc` the
error whose message is exactly `e`, sends nothing else (no result), and removes `i`
from the pending map; the `select` of that call then has the single ready case that
makes `Call` return no payload and the error with message `e`. -/
theorem error_reply_rejects_verbatim (b : Bridge) (msg : JObj) (i e : String)
    (pc : PendingCall) (hi : asString (jget msg "id") = some i)
    (hp : List.lookup i b.pending = some pc) (he : asString (jget msg "error") = some e) :
    (b.handleMessage (some msg)).2 = [Effect.sendError pc { msg := e }]
      ∧ (b.handleMessage (some msg)).1 = { b with pending := mapDelete b.pending i }
      ∧ List.lookup i (b.handleMessage (some msg)).1.pending = none
      ∧ (readyCases (b.handleMessage (some msg)).2 pc false).map callSelect
          = [(none, some { msg := e })]
      ∧ ({ msg := e } : GoError).msg = e := by
  have hr : b.replyTarget msg = some (i, pc) := (replyTarget_some b msg i pc).2 ⟨hi, hp⟩
  have heff : (b.handleMessage (some msg)).2 = [Effect.sendError pc { msg := e }] := by
    rw [handleMessage_reply_effects b msg i pc hr, he]
  have hst := handleMessage_reply b msg i pc hr
  refine ⟨heff, hst, ?_, ?_, rfl⟩
  · rw [hst]
    exact lookup_mapDelete_self _ _
  · rw [heff]
    simp [readyCases, callSelect]

/-- C15 (witness): `call_7` is pending and `{id:"call_7", error:"boom"}` arrives. -/
theorem error_reply_rejects_verbatim_witness :
    List.lookup "call_7" callSevenBridge.pending = some { addr := 7 }
      ∧ (callSevenBridge.handleMessage (some boomReply)).2
          = [Effect.sendError { addr := 7 } { msg := "boom" }]
      ∧ List.lookup "call_7" (callSevenBridge.handleMessage (some boomReply)).1.pending = none
      ∧ (readyCases (callSevenBridge.handleMessage (some boomReply)).2 { addr := 7 }
          false).map callSelect = [(none, some { msg := "boom" })] :=
  have h := error_reply_rejects_verbatim callSevenBridge boomReply "call_7" "boom"
    { addr := 7 } (by decide) (by decide) (by decide)
  ⟨by decide, h.1, h.2.2.1, h.2.2.2.1⟩

/-- C14 (witness): `sync_all` is called on the accepted bridge and the reply
`{id:"call_1", result:"late"}` is handled while the call is blocked: the call was
pending under `call_1` when the request was sent, and nothing is pending after the
return. -/
theorem Call_pending_lifecycle_witness :
    List.lookup "call_1" (acceptedBridge.callRegister "sync_all" []).1.pending
        = some { addr := 1 }
      ∧ (acceptedBridge.Call "sync_all" [] none [Action.message (some lateReply)]
          false 0).map (fun r => r.bridge.pending) = some [] :=
  ⟨(Call_pending_lifecycle acceptedBridge "sync_all" [] none
      [Action.message (some lateReply)] false 0).1, by decide⟩

/-- C16 (counterexample): `call_1` is pending on the live bridge and the reply
`{id:"call_1", error:{code:500}}` arrives, whose `error` is an object: nothing is sent
on the `Error` channel, a nil payload is sent on the `Result` channel, and the `select`
of the call makes `Call` return no payload and no error, a success. -/
theorem object_error_resolves_call :
    List.lookup "call_1" liveBridge.pending = some { addr := 1 }
      ∧ (liveBridge.handleMessage (some objectErrorReply)).2
          = [Effect.sendResult { addr := 1 } none]
      ∧ (readyCases (liveBridge.handleMessage (some objectErrorReply)).2 { addr := 1 }
          false).map callSelect = [(none, none)] := by
  refine ⟨by decide, by rfl, by rfl⟩

/-- C16 (amended): for every inbound message whose `id` matches the pending call `pc`:
when its `error` field is a JSON string, the only effect is that string sent as the
error of `pc`, so the call is rejected and not resolved; when the `error` field is
absent or is any other JSON value, the only effect is the `result` field (nil when
there is none) sent as the result of `pc`, so the call is resolved as a success. -/
theorem reply_rejects_on_string_error_only (b : Bridge) (msg : JObj) (id : String)
    (pc : PendingCall) (hi : asString (jget msg "id") = some id)
    (hp : List.lookup id b.pending = some pc) :
    (∀ e, asString (jget msg "error") = some e →
        (b.handleMessage (some msg)).2 = [Effect.sendError pc { msg := e }])
      ∧ (asString (jget msg "error") = none →
        (b.handleMessage (some msg)).2 = [Effect.sendResult pc (jget msg "result")]) := by
  have hr : b.replyTarget msg = some (id, pc) := (replyTarget_some b msg id pc).2 ⟨hi, hp⟩
  constructor
  · intro e he
    rw [handleMessage_reply_effects b msg id pc hr, he]
  · intro he
    rw [handleMessage_reply_effects b msg id pc hr, he]

/-- C16 (witness): `call_7` is pending and `{id:"call_7", error:"boom"}` arrives. -/
theorem reply_rejects_on_string_error_only_witness :
    (callSevenBridge.handleMessage (some boomReply)).2
      = [Effect.sendError { addr := 7 } { msg := "boom" }] :=
  (reply_rejects_on_string_error_only callSevenBridge boomReply "call_7" { addr := 7 }
    (by decide) (by decide)).1 "boom" (by decide)

/-- C17 (counterexample): `sync_all` is called on the accepted bridge and the reply
`{id:"call_1"}`, with neither `result` nor `error`, is handled while the call is
blocked: `Call` returns a nil payload and a nil error. -/
theorem Call_returns_nil_and_nil :
    (acceptedBridge.Call "sync_all" [] none [Action.message (some bareReply)]
        false 0).map (fun r => (r.payload.isNone, r.err)) = some (true, none) := by
  decide

/-- C17 (amended): once its timer has fired `Call` returns; and every return of `Call`
is of one of four kinds, with one pair of values: the error of the failed send and no
payload; the payload that a reply sent on the `Result` channel (nil when the reply had
no `result`) and no error; the error that a reply sent on the `Error` channel and no
payload; or, the timer having fired, the `timeout` error and no payload.  It never
returns both a payload and an error; the bridge has no disconnected error. -/
theorem Call_returns_one_outcome (b : Bridge) (msgType : String) (params : JObj)
    (writeErr : Option GoError) (during : List Action) (choice : Nat) :
    (b.Call msgType params writeErr during true choice).isSome = true
      ∧ ∀ timerFired r, b.Call msgType params writeErr during timerFired choice = some r →
          (r.payload = none ∨ r.err = none)
          ∧ ((∃ e, ((b.callRegister msgType params).1.send
                  (b.callRegister msgType params).2.msg writeErr).1 = some e
                ∧ r.payload = none ∧ r.err = some e)
            ∨ (∃ data, Effect.sendResult (b.callRegister msgType params).2.pending data
                  ∈ ((b.callRegister msgType params).1.run during).2
                ∧ r.payload = data ∧ r.err = none)
            ∨ (∃ e, Effect.sendError (b.callRegister msgType params).2.pending e
                  ∈ ((b.callRegister msgType params).1.run during).2
                ∧ r.payload = none ∧ r.err = some e)
            ∨ (timerFired = true ∧ r.payload = none
                ∧ r.err = some { msg := "timeout" })) := by
  constructor
  · unfold Bridge.Call
    simp only []
    split
    · rfl
    · have hlen := readyCases_timer_ne_nil ((b.callRegister msgType params).1.run during).2
        (b.callRegister msgType params).2.pending
      have hlt := Nat.mod_lt choice hlen
      rw [List.getElem?_eq_getElem hlt]
      rfl
  · intro timerFired r hr
    unfold Bridge.Call at hr
    simp only [] at hr
    split at hr
    · rename_i e he
      obtain rfl := Option.some.inj hr
      exact ⟨Or.inl rfl, Or.inl ⟨e, he, rfl, rfl⟩⟩
    · split at hr
      · rename_i c hc
        obtain rfl := Option.some.inj hr
        have hmem := List.getElem?_mem hc
        rcases mem_readyCases _ _ _ _ hmem with ⟨data, rfl, hd⟩ | ⟨e, rfl, he⟩ | ⟨rfl, ht⟩
        · exact ⟨Or.inr rfl, Or.inr (Or.inl ⟨data, hd, rfl, rfl⟩)⟩
        · exact ⟨Or.inl rfl, Or.inr (Or.inr (Or.inl ⟨e, he, rfl, rfl⟩))⟩
        · exact ⟨Or.inl rfl, Or.inr (Or.inr (Or.inr ⟨ht, rfl, rfl⟩))⟩
      · exact Option.noConfusion hr

/-- C18 (counterexample): `sync_all` is called on the accepted bridge.  When the peer
answers `{id:"call_1", error:"timeout"}`, which is sent on the `Error` channel as a
remote error, `Call` returns the same values as when nobody answers and the timer
fires: no payload and an error whose message is `timeout`. -/
theorem remote_error_equal_to_timeout :
    ((acceptedBridge.callRegister "sync_all" []).1.handleMessage (some timeoutWordReply)).2
        = [Effect.sendError { addr := 1 } { msg := "timeout" }]
      ∧ (acceptedBridge.Call "sync_all" [] none [Action.message (some timeoutWordReply)]
          false 0).map (fun r => (r.payload.isNone, r.err))
            = some (true, some { msg := "timeout" })
      ∧ (acceptedBridge.Call "sync_all" [] none [] true 0).map
          (fun r => (r.payload.isNone, r.err)) = some (true, some { msg := "timeout" }) := by
  refine ⟨by rfl, by decide, by decide⟩

/-- C18 (amended): when a connection is installed, the request was written without
error and nothing is sent on the channels of the call while it is blocked, `Call` stays
blocked until the timer fires and then returns no payload and the error `timeout`; and
what `Call` returns for a remote error with message `e` differs from that exactly when
`e` is not the string `timeout`. -/
theorem timeout_when_no_reply (b : Bridge) (msgType : String) (params : JObj)
    (during : List Action) (choice : Nat) (conn : Conn) (hc : b.client = some conn)
    (hq : ((b.callRegister msgType params).1.run during).2.any
      (Effect.deliversTo (b.callRegister msgType params).2.pending) = false) :
    (∃ r, b.Call msgType params none during true choice = some r
        ∧ r.payload = none ∧ r.err = some { msg := "timeout" })
      ∧ b.Call msgType params none during false choice = none
      ∧ ∀ e : String, callSelect (SelectCase.error { msg := e }) = callSelect SelectCase.timer
          ↔ e = "timeout" := by
  have hsend : ∀ m : JObj, ((b.callRegister msgType params).1.send m none).1 = none := by
    intro m
    simp [Bridge.send, Bridge.callRegister, hc]
  refine ⟨?_, ?_, ?_⟩
  · unfold Bridge.Call
    simp only [hsend, readyCases_of_no_delivery _ _ _ hq, if_true, List.length_singleton,
      Nat.mod_one, List.getElem?_cons_zero]
    exact ⟨_, rfl, rfl, rfl⟩
  · unfold Bridge.Call
    simp only [hsend, readyCases_of_no_delivery _ _ _ hq]
    rfl
  · intro e
    simp only [callSelect, Prod.mk.injEq, true_and, Option.some.injEq, GoError.mk.injEq]

/-- C18 (witness): `sync_all` is called on the accepted bridge and only a plugins push
is handled while it is blocked. -/
theorem timeout_when_no_reply_witness :
    acceptedBridge.client = some 1
      ∧ (∃ r, acceptedBridge.Call "sync_all" [] none
            [Action.message (some samplePluginsPush)] true 0 = some r
          ∧ r.payload = none ∧ r.err = some { msg := "timeout" })
      ∧ acceptedBridge.Call "sync_all" [] none
          [Action.message (some samplePluginsPush)] false 0 = none :=
  have h := timeout_when_no_reply acceptedBridge "sync_all" []
    [Action.message (some samplePluginsPush)] 0 1 (by decide) (by decide)
  ⟨by decide, h.1, h.2.1⟩

/-- C19: a message whose `id` is a string with no entry in the pending map and whose
`type` is neither `tools` nor `plugins` (as for a reply, late or unknown, that carries
`id` with `result` or `error` and no type) changes nothing: the bridge, and so the
pending map, the tools, the plugins and the connected flag, is the same after
`handleMessage`, and there is no effect, so nothing is sent to any pending call. -/
theorem unmatched_reply_is_noop (b : Bridge) (msg : JObj) (i : String)
    (hi : asString (jget msg "id") = some i) (hp : List.lookup i b.pending = none)
    (ht : getString msg "type" ≠ "tools") (hpl : getString msg "type" ≠ "plugins") :
    b.handleMessage (some msg) = (b, [])
      ∧ (b.handleMessage (some msg)).1.pending = b.pending
      ∧ (b.handleMessage (some msg)).1.tools = b.tools
      ∧ (b.handleMessage (some msg)).1.plugins = b.plugins
      ∧ (b.handleMessage (some msg)).1.connected = b.connected
      ∧ (b.handleMessage (some msg)).2.any Effect.isDelivery = false := by
  have hr : b.replyTarget msg = none := by
    rw [replyTarget_none]
    intro id hid
    rw [hi] at hid
    rw [← Option.some.inj hid]
    exact hp
  have h : b.handleMessage (some msg) = (b, []) := by
    rw [handleMessage_push b msg hr, handlePush_other b msg ht hpl]
  rw [h]
  exact ⟨rfl, rfl, rfl, rfl, rfl, rfl⟩

/-- C19 (witness): on the live bridge `call_1` has timed out and its deferred delete has
run (`call_2` is still pending); then the late reply `{id:"call_1", result:"late"}`
arrives. -/
theorem unmatched_reply_is_noop_witness :
    List.lookup "call_1" (liveBridge.callFinish "call_1").pending = none
      ∧ (liveBridge.callFinish "call_1").handleMessage (some lateReply)
          = (liveBridge.callFinish "call_1", []) :=
  ⟨by decide,
    (unmatched_reply_is_noop (liveBridge.callFinish "call_1") lateReply "call_1"
      (by decide) (by decide) (by decide) (by decide)).1⟩

/-- C20: a message whose `id` is a string with a pending entry is handled as a reply,
whatever its `type`: the bridge afterwards is the bridge before with only that entry
deleted (so tools, plugins and connected flag are unchanged and every other entry
stays), and the only effect is one send on a channel of that call.  Every other message
(no `id`, an `id` that is no string, or an `id` without pending entry) is handled by the
push switch on its `type`: the pending map is unchanged and nothing is sent to any
pending call. -/
theorem reply_or_push (b : Bridge) (msg : JObj) :
    (∀ id pc, asString (jget msg "id") = some id → List.lookup id b.pending = some pc →
        (b.handleMessage (some msg)).1 = { b with pending := mapDelete b.pending id }
          ∧ (b.handleMessage (some msg)).1.tools = b.tools
          ∧ (b.handleMessage (some msg)).1.plugins = b.plugins
          ∧ (b.handleMessage (some msg)).1.connected = b.connected
          ∧ List.lookup id (b.handleMessage (some msg)).1.pending = none
          ∧ (∀ k, k ≠ id →
              List.lookup k (b.handleMessage (some msg)).1.pending = List.lookup k b.pending)
          ∧ (b.handleMessage (some msg)).2.length = 1
          ∧ (b.handleMessage (some msg)).2.all (Effect.deliversTo pc) = true)
      ∧ ((∀ id, asString (jget msg "id") = some id → List.lookup id b.pending = none) →
        b.handleMessage (some msg) = b.handlePush msg
          ∧ (b.handleMessage (some msg)).1.pending = b.pending
          ∧ (b.handleMessage (some msg)).2.any Effect.isDelivery = false) := by
  constructor
  · intro id pc hi hp
    have hr : b.replyTarget msg = some (id, pc) := (replyTarget_some b msg id pc).2 ⟨hi, hp⟩
    have hst := handleMessage_reply b msg id pc hr
    have heff := handleMessage_reply_effects b msg id pc hr
    rw [hst, heff]
    refine ⟨rfl, rfl, rfl, rfl, lookup_mapDelete_self _ _,
      fun k hk => lookup_mapDelete_ne _ _ _ hk, ?_, ?_⟩
    · cases asString (jget msg "error") <;> rfl
    · cases asString (jget msg "error") <;> simp [Effect.deliversTo]
  · intro h
    have hr : b.replyTarget msg = none := (replyTarget_none b msg).2 h
    rw [handleMessage_push b msg hr]
    exact ⟨rfl, handlePush_pending b msg, handlePush_no_delivery b msg⟩

/-- C20 (witness): on the live bridge, where `call_1` is pending, a message of type
`tools` that carries the identifier `call_1` is handled as a reply and leaves the tools
alone, and the same message without identifier is handled as a push and leaves the
pending map alone. -/
theorem reply_or_push_witness :
    ((liveBridge.handleMessage (some (("id", JVal.str "call_1") :: mixedToolsPush))).1.tools
        = liveBridge.tools
      ∧ List.lookup "call_1"
          (liveBridge.handleMessage (some (("id", JVal.str "call_1") :: mixedToolsPush))).1.pending
            = none)
      ∧ (liveBridge.handleMessage (some mixedToolsPush) = liveBridge.handlePush mixedToolsPush
        ∧ (liveBridge.handleMessage (some mixedToolsPush)).1.pending = liveBridge.pending) :=
  have h1 := (reply_or_push liveBridge (("id", JVal.str "call_1") :: mixedToolsPush)).1
    "call_1" { addr := 1 } (by decide) (by decide)
  have h2 := (reply_or_push liveBridge mixedToolsPush).2
    (fun id hid => by
      rw [show asString (jget mixedToolsPush "id") = none from by decide] at hid
      exact Option.noConfusion hid)
  ⟨⟨h1.2.1, h1.2.2.2.2.1⟩, ⟨h2.1, h2.2.1⟩⟩

/-- C26 (counterexample): no URL is stored and the workspace is `a/b.c`, `x?y.z` or
`a.b@c`.  Each contains a dot, so `ThymerURL()` is `https://` and the workspace; the
hosts of these URLs are `a`, `x` and `c`, which contain no dot. -/
theorem host_without_dot :
    ((workspaceConfig "a/b.c").ThymerURL = "https://a/b.c"
        ∧ urlHost (workspaceConfig "a/b.c").ThymerURL = "a"
        ∧ stringsContainsChar (urlHost (workspaceConfig "a/b.c").ThymerURL) '.' = false)
      ∧ ((workspaceConfig "x?y.z").ThymerURL = "https://x?y.z"
        ∧ urlHost (workspaceConfig "x?y.z").ThymerURL = "x"
        ∧ stringsContainsChar (urlHost (workspaceConfig "x?y.z").ThymerURL) '.' = false)
      ∧ ((workspaceConfig "a.b@c").ThymerURL = "https://a.b@c"
        ∧ urlHost (workspaceConfig "a.b@c").ThymerURL = "c"
        ∧ stringsContainsChar (urlHost (workspaceConfig "a.b@c").ThymerURL) '.' = false) := by
  decide

/-- C26 (amended): for every configuration, `ThymerURL()` is the stored URL when that is
not empty; otherwise it is `https://app.thymer.com` for an empty workspace, `https://`,
the workspace and `.thymer.com` for a workspace without a dot, and `https://` and the
workspace for a workspace with a dot.  So when no URL is stored the result is
`https://` followed by a text that contains a dot; that text has no slash when the
workspace has none, and it is the host of the URL, which then contains a dot, when the
workspace has none of the characters `/`, `?`, `#`, `@` and `:`. -/
theorem ThymerURL_cases (c : Config) :
    (c.ThymerURLv ≠ "" → c.ThymerURL = c.ThymerURLv)
      ∧ (c.ThymerURLv = "" → c.Workspace = "" → c.ThymerURL = "https://app.thymer.com")
      ∧ (c.ThymerURLv = "" → c.Workspace ≠ "" → stringsContainsChar c.Workspace '.' = false →
          c.ThymerURL = "https://" ++ c.Workspace ++ ".thymer.com")
      ∧ (c.ThymerURLv = "" → c.Workspace ≠ "" → stringsContainsChar c.Workspace '.' = true →
          c.ThymerURL = "https://" ++ c.Workspace)
      ∧ (c.ThymerURLv = "" →
          ∃ rest : String, c.ThymerURL = "https://" ++ rest
            ∧ stringsContainsChar rest '.' = true
            ∧ (stringsContainsChar c.Workspace '/' = false →
                stringsContainsChar rest '/' = false)
            ∧ (noUrlDelimiter c.Workspace = true →
                urlHost c.ThymerURL = rest
                  ∧ stringsContainsChar (urlHost c.ThymerURL) '.' = true)) := by
  refine ⟨?_, ?_, ?_, ?_, ?_⟩
  · intro h
    simp [Config.ThymerURL, h]
  · intro h hw
    simp [Config.ThymerURL, h, hw]
  · intro h hw hd
    simp [Config.ThymerURL, h, hw, hd]
  · intro h hw hd
    simp [Config.ThymerURL, h, hw, hd]
  · intro h
    have key : ∀ rest : String, c.ThymerURL = "https://" ++ rest →
        stringsContainsChar rest '.' = true →
        (noUrlDelimiter c.Workspace = true → noUrlDelimiter rest = true) →
        (noUrlDelimiter c.Workspace = true →
          urlHost c.ThymerURL = rest
            ∧ stringsContainsChar (urlHost c.ThymerURL) '.' = true) := by
      intro rest hu hdot hdel hws
      have hh : urlHost c.ThymerURL = rest := by
        rw [hu]
        exact urlHost_of_no_delimiter rest (hdel hws)
      exact ⟨hh, by rw [hh]; exact hdot⟩
    by_cases hw : c.Workspace = ""
    · have hu : c.ThymerURL = "https://" ++ "app.thymer.com" := by
        simp [Config.ThymerURL, h, hw]
      exact ⟨"app.thymer.com", hu, by decide, fun _ => by decide,
        key _ hu (by decide) (fun _ => by decide)⟩
    · cases hd : stringsContainsChar c.Workspace '.' with
      | false =>
        have hu : c.ThymerURL = "https://" ++ (c.Workspace ++ ".thymer.com") := by
          simp [Config.ThymerURL, h, hw, hd, String.append_assoc]
        have hdot : stringsContainsChar (c.Workspace ++ ".thymer.com") '.' = true := by
          simp [stringsContainsChar, String.data_append]
        refine ⟨c.Workspace ++ ".thymer.com", hu, hdot, ?_, key _ hu hdot ?_⟩
        · intro hs
          simp only [stringsContainsChar, String.data_append, List.contains_eq_any_beq,
            List.any_append, Bool.or_eq_false_iff] at hs ⊢
          exact ⟨hs, by decide⟩
        · intro hs
          simp only [noUrlDelimiter, String.data_append, List.all_append,
            Bool.and_eq_true] at hs ⊢
          exact ⟨hs, by decide⟩
      | true =>
        have hu : c.ThymerURL = "https://" ++ c.Workspace := by
          simp [Config.ThymerURL, h, hw, hd]
        exact ⟨c.Workspace, hu, hd, fun hs => hs, key _ hu hd (fun hs => hs)⟩

/-- C26 (witness): the configurations with the workspaces `acme` and
`acme.example.org` and no stored URL. -/
theorem ThymerURL_cases_witness :
    (workspaceConfig "acme").ThymerURL = "https://acme.thymer.com"
      ∧ (workspaceConfig "acme.example.org").ThymerURL = "https://acme.example.org"
      ∧ urlHost (workspaceConfig "acme").ThymerURL = "acme.thymer.com" :=
  ⟨((ThymerURL_cases (workspaceConfig "acme")).2.2.1 rfl (by decide) (by decide)).trans
      (by decide),
    (ThymerURL_cases (workspaceConfig "acme.example.org")).2.2.2.1 rfl (by decide)
      (by decide),
    by decide⟩

/-- C21 (counterexample): on the accepted bridge, `Call` with the parameters
`{id:"x", type:"y"}` registers its `PendingCall` under `call_1`, but the request map it
builds has the `id` field `x` and the `type` field `y`, not `call_1` and `tool_call`. -/
theorem params_overwrite_id_and_type :
    (acceptedBridge.callRegister "tool_call"
        [("id", JVal.str "x"), ("type", JVal.str "y")]).2.id = "call_1"
      ∧ List.lookup "call_1" (acceptedBridge.callRegister "tool_call"
          [("id", JVal.str "x"), ("type", JVal.str "y")]).1.pending = some { addr := 1 }
      ∧ asString (jget (acceptedBridge.callRegister "tool_call"
          [("id", JVal.str "x"), ("type", JVal.str "y")]).2.msg "id") = some "x"
      ∧ asString (jget (acceptedBridge.callRegister "tool_call"
          [("id", JVal.str "x"), ("type", JVal.str "y")]).2.msg "type") = some "y" := by
  decide

/-- C21 (amended): for every message type `t` and every parameter map `p` (a map: no
key twice), every entry of `p` is a field of the request map that `Call` builds and
transmits; its `id` field is the identifier under which the `PendingCall` is registered
when `p` has no `id` entry, its `type` field is `t` when `p` has no `type` entry, and it
has no other field.  `ExecuteTool`, `Sync` and `SyncAll` are `Call` with the maps
`{name, args}`, `{plugin}` and none, so their requests are `{id, type:"tool_call", name,
args}`, `{id, type:"sync", plugin}` and `{id, type:"sync_all"}`. -/
theorem request_message_fields (b : Bridge) (t : String) (p : JObj)
    (hn : (p.map Prod.fst).Nodup) :
    (∀ k v, (k, v) ∈ p → jget (b.callRegister t p).2.msg k = some v)
      ∧ ("id" ∉ p.map Prod.fst →
          jget (b.callRegister t p).2.msg "id" = some (JVal.str (b.callRegister t p).2.id))
      ∧ ("type" ∉ p.map Prod.fst → jget (b.callRegister t p).2.msg "type" = some (JVal.str t))
      ∧ (∀ k, k ≠ "id" → k ≠ "type" → k ∉ p.map Prod.fst →
          jget (b.callRegister t p).2.msg k = none)
      ∧ List.lookup (b.callRegister t p).2.id (b.callRegister t p).1.pending
          = some (b.callRegister t p).2.pending
      ∧ (∀ (conn : Conn) (writeErr : Option GoError) (during : List Action)
          (timerFired : Bool) (choice : Nat) (r : CallReturn), b.client = some conn →
          b.Call t p writeErr during timerFired choice = some r →
          ∃ rest, r.effects = Effect.writeMessage conn (b.callRegister t p).2.msg :: rest)
      ∧ (∀ (name : String) (args : Option JObj) (env : CallEnv),
          b.ExecuteTool name args env
              = b.Call "tool_call" [("name", JVal.str name), ("args", mapValue args)]
                  env.writeErr env.during env.timerFired env.choice
            ∧ (b.callRegister "tool_call"
                [("name", JVal.str name), ("args", mapValue args)]).2.msg
              = [("args", mapValue args), ("name", JVal.str name),
                 ("id", JVal.str (callIdent (wrapInt64 (b.callID + 1)))),
                 ("type", JVal.str "tool_call")])
      ∧ (∀ plugin : String, (b.callRegister "sync" [("plugin", JVal.str plugin)]).2.msg
          = [("plugin", JVal.str plugin), ("id", JVal.str (callIdent (wrapInt64 (b.callID + 1)))),
             ("type", JVal.str "sync")])
      ∧ (b.callRegister "sync_all" []).2.msg
          = [("id", JVal.str (callIdent (wrapInt64 (b.callID + 1)))), ("type", JVal.str "sync_all")] := by
  have hmsg : ∀ k, jget (b.callRegister t p).2.msg k
      = match List.lookup k p with
        | some v => some v
        | none => jget [("id", JVal.str (callIdent (wrapInt64 (b.callID + 1)))), ("type", JVal.str t)] k :=
    fun k => jget_foldl_mapSet p _ k hn
  refine ⟨?_, ?_, ?_, ?_, lookup_mapSet_self _ _ _, ?_, ?_, ?_, ?_⟩
  · intro k v hkv
    rw [hmsg k, lookup_of_mem_nodup p k v hn hkv]
  · intro hid
    rw [hmsg "id", lookup_of_not_mem_keys p "id" hid]
    rfl
  · intro hty
    rw [hmsg "type", lookup_of_not_mem_keys p "type" hty]
    rfl
  · intro k hid hty hk
    rw [hmsg k, lookup_of_not_mem_keys p k hk]
    have h1 : (k == "id") = false := by
      rw [beq_eq_false_iff_ne]; exact hid
    have h2 : (k == "type") = false := by
      rw [beq_eq_false_iff_ne]; exact hty
    simp only [jget, List.lookup_cons, h1, h2, List.lookup_nil]
  · intro conn writeErr during timerFired choice r hc hr
    exact Call_effects_head b t p writeErr during timerFired choice conn hc r hr
  · intro name args env
    exact ⟨rfl, rfl⟩
  · intro plugin
    rfl
  · rfl

/-- C21 (witness): `ExecuteTool("echo_find", {})` on the accepted bridge: the request is
`{id:"call_1", type:"tool_call", name:"echo_find", args:{}}`. -/
theorem request_message_fields_witness :
    jget (acceptedBridge.callRegister "tool_call"
        [("name", JVal.str "echo_find"), ("args", mapValue (some []))]).2.msg "id"
      = some (JVal.str "call_1")
    ∧ jget (acceptedBridge.callRegister "tool_call"
        [("name", JVal.str "echo_find"), ("args", mapValue (some []))]).2.msg "type"
      = some (JVal.str "tool_call")
    ∧ jget (acceptedBridge.callRegister "tool_call"
        [("name", JVal.str "echo_find"), ("args", mapValue (some []))]).2.msg "name"
      = some (JVal.str "echo_find") :=
  have h := request_message_fields acceptedBridge "tool_call"
    [("name", JVal.str "echo_find"), ("args", mapValue (some []))] (by decide)
  ⟨h.2.1 (by decide), h.2.2.1 (by decide),
    h.1 "name" (JVal.str "echo_find") (List.mem_cons_self _ _)⟩

/-- C22: for a query (a map: no parameter twice, every parameter with at least one
value) handled while a connection is installed and whose `collection` parameter `c` is
not empty, `handleQuery` is the call `ExecuteTool(c ++ "_find", args)`: the request it
transmits is `{id, type:"tool_call", name: c ++ "_find", args}`, where `args` has no
`collection` key, has a key for exactly the other parameters of the query, and maps
each to the first value of that parameter; when the call returns without error the
response is the status 200 with the payload itself as body, and when it returns an
error the response is the status 502. -/
theorem query_invokes_find (a : App) (b : Bridge) (query : Values) (env : CallEnv)
    (conn : Conn) (c : String) (hb : a.bridge = some b) (hc : b.client = some conn)
    (hq : Values.Get query "collection" = c) (hne : c ≠ "")
    (hn : (query.map Prod.fst).Nodup) (hv : ∀ kv ∈ query, kv.2 ≠ []) :
    (a.handleQuery query env = none
        ↔ b.ExecuteTool (c ++ "_find") (some (query.foldl queryArgsLoopBody [])) env = none)
      ∧ (∀ r, b.ExecuteTool (c ++ "_find") (some (query.foldl queryArgsLoopBody [])) env
            = some r →
          (r.err = none →
            a.handleQuery query env
              = some { response := { status := 200, body := Body.raw r.payload },
                       state := { a with bridge := some r.bridge }, effects := r.effects })
          ∧ (∀ err, r.err = some err →
            a.handleQuery query env
              = some { response :=
                         httpError ("\x7b\"error\":\"" ++ err.msg ++ "\"\x7d") 502,
                       state := { a with bridge := some r.bridge }, effects := r.effects })
          ∧ ∃ rest, r.effects
              = Effect.writeMessage conn
                  [("args", JVal.obj (query.foldl queryArgsLoopBody [])),
                   ("name", JVal.str (c ++ "_find")),
                   ("id", JVal.str (callIdent (wrapInt64 (b.callID + 1)))),
                   ("type", JVal.str "tool_call")] :: rest)
      ∧ jget (query.foldl queryArgsLoopBody []) "collection" = none
      ∧ (∀ k, k ≠ "collection" →
          jget (query.foldl queryArgsLoopBody []) k
            = (List.lookup k query).map (fun vs => JVal.str (vs.headD "")))
      ∧ (∀ k, (jget (query.foldl queryArgsLoopBody []) k).isSome = true
          ↔ k ≠ "collection" ∧ k ∈ query.map Prod.fst) := by
  have hne2 : Values.Get query "collection" ≠ "" := by rw [hq]; exact hne
  have hmain := handleQuery_connected a b query env conn hb hc hne2
  rw [hq] at hmain
  have hargs : ∀ k, k ≠ "collection" →
      jget (query.foldl queryArgsLoopBody []) k
        = (List.lookup k query).map (fun vs => JVal.str (vs.headD "")) := by
    intro k hk
    rw [jget_queryArgs query [] k hn, if_neg hk]
    cases hl : List.lookup k query with
    | none => rfl
    | some vs =>
      cases vs with
      | nil =>
        exfalso
        have hmem : (k, ([] : List String)) ∈ query := by
          clear hmain hv hn hq hne2
          induction query with
          | nil => simp at hl
          | cons kv rest ih =>
            obtain ⟨k0, v0⟩ := kv
            by_cases hkk : k = k0
            · subst hkk
              simp only [List.lookup_cons, beq_self_eq_true, Option.some.injEq] at hl
              rw [hl]
              exact List.mem_cons_self _ _
            · have hneq : (k == k0) = false := by
                rw [beq_eq_false_iff_ne]; exact hkk
              rw [List.lookup_cons, hneq] at hl
              exact List.mem_cons_of_mem _ (ih hl)
        exact hv _ hmem rfl
      | cons x xs => rfl
  refine ⟨?_, ?_, ?_, hargs, ?_⟩
  · rw [hmain]
    cases b.ExecuteTool (c ++ "_find") (some (query.foldl queryArgsLoopBody [])) env with
    | none => simp
    | some r =>
      obtain ⟨rb, rp, re, rf⟩ := r
      cases re <;> simp
  · intro r hr
    rw [hmain, hr]
    refine ⟨?_, ?_, ?_⟩
    · intro he
      simp only [he]
    · intro err he
      simp only [he]
    · exact Call_effects_head b "tool_call" _ env.writeErr env.during env.timerFired
        env.choice conn hc r hr
  · rw [jget_queryArgs query [] "collection" hn, if_pos rfl]
    rfl
  · intro k
    by_cases hk : k = "collection"
    · subst hk
      rw [jget_queryArgs query [] "collection" hn, if_pos rfl]
      simp [jget]
    · rw [hargs k hk]
      constructor
      · intro h
        refine ⟨hk, ?_⟩
        by_contra hnot
        rw [lookup_of_not_mem_keys query k hnot] at h
        simp at h
      · rintro ⟨_, hmem⟩
        obtain ⟨kv, hkv, hfst⟩ := List.mem_map.1 hmem
        obtain ⟨k1, v1⟩ := kv
        simp only at hfst
        subst hfst
        rw [lookup_of_mem_nodup query k1 v1 hn hkv]
        rfl

/-- C22 (witness): the query `collection=echo&limit=5&q=tea` on the accepted bridge,
answered by `{id:"call_1", result:{count:1}}`: the response is that result with the
status 200, and the arguments are `limit` and `q`. -/
theorem query_invokes_find_witness :
    ((App.handleQuery { config := workspaceConfig "acme", bridge := some acceptedBridge }
        sampleQuery (answeredBy objectReply)).map (fun h => h.response))
        = some { status := 200,
                 body := Body.raw (some (JVal.obj [("count", JVal.num "1")])) }
      ∧ jget (sampleQuery.foldl queryArgsLoopBody []) "collection" = none
      ∧ jget (sampleQuery.foldl queryArgsLoopBody []) "limit" = some (JVal.str "5")
      ∧ jget (sampleQuery.foldl queryArgsLoopBody []) "q" = some (JVal.str "tea") :=
  have h := query_invokes_find
    { config := workspaceConfig "acme", bridge := some acceptedBridge } acceptedBridge
    sampleQuery (answeredBy objectReply) 1 "echo" rfl (by decide) (by decide) (by decide)
    (by decide) (by decide)
  ⟨by rfl, h.2.2.1, (h.2.2.2.1 "limit" (by decide)).trans (by rfl),
    (h.2.2.2.1 "q" (by decide)).trans (by rfl)⟩

/-- C23 (counterexample): `tools/call` arrives at the RPC adapter while no connection is
installed on the bridge.  The adapter invokes `Call`: the call counter goes from 0 to 1.
Its answer is the error -32000 with the message `not connected`, which is also its
answer when a connection is installed and the peer rejects the call with the error
`not connected`. -/
theorem rpc_call_without_connection :
    idleBridge.IsConnected = false
      ∧ idleBridge.callID = 0
      ∧ (MCPServer.handleStateless idleBridge "POST" (some sampleToolCall) (fun _ => "")
          (answeredBy objectReply)).map (fun h => h.state.callID) = some 1
      ∧ (MCPServer.handleStateless idleBridge "POST" (some sampleToolCall) (fun _ => "")
          (answeredBy objectReply)).map (fun h => h.response)
            = some (MCPServer.jsonRPCError (JVal.num "5") (-32000) "not connected")
      ∧ (MCPServer.handleStateless acceptedBridge "POST" (some sampleToolCall) (fun _ => "")
          (answeredBy notConnectedWordReply)).map (fun h => h.response)
            = some (MCPServer.jsonRPCError (JVal.num "5") (-32000) "not connected") := by
  refine ⟨by decide, by decide, by decide, by rfl, by rfl⟩

/-- C23 (amended): the Query adapter answers a request that arrives while no connection
is installed with the status 503 and `SyncHub not connected`, leaves the app as it is
and has no effect (no identifier allocated, nothing registered), and every answer it
gives while a connection is installed has another status.  The `tools/call` of the RPC
adapter has no such test: with no connection installed and a name that is not empty it
invokes `Call`, which allocates the next identifier, leaves every other pending entry
as it is and its own absent, writes nothing, and fails with `not connected`; the answer
is the error -32000 with that message. -/
theorem not_connected_answers (a : App) (query : Values) (b : Bridge) (req : RPCRequest)
    (render : JVal → String) (env : CallEnv) :
    (a.IsConnected = false →
        a.handleQuery query env
          = some { response := httpError "\x7b\"error\":\"SyncHub not connected\"\x7d" 503,
                   state := a, effects := [] })
      ∧ (∀ h, a.IsConnected = true → a.handleQuery query env = some h →
          h.response.status ≠ 503)
      ∧ (∀ name, b.client = none → req.Method = "tools/call" →
          asString (jget (req.Params.getD []) "name") = some name → name ≠ "" →
          ∃ h, MCPServer.handleStateless b "POST" (some req) render env = some h
            ∧ h.response = MCPServer.jsonRPCError req.ID (-32000) "not connected"
            ∧ h.state.callID = wrapInt64 (b.callID + 1)
            ∧ h.effects = []
            ∧ List.lookup (callIdent (wrapInt64 (b.callID + 1))) h.state.pending = none
            ∧ ∀ k, k ≠ callIdent (wrapInt64 (b.callID + 1)) →
                List.lookup k h.state.pending = List.lookup k b.pending) := by
  refine ⟨?_, ?_, ?_⟩
  · intro h
    simp [App.handleQuery, h]
  · intro h hcon hq
    obtain ⟨b0, conn, hb, hc⟩ := App_connected a hcon
    by_cases hcol : Values.Get query "collection" = ""
    · simp only [App.handleQuery, hcon, Bool.not_true, Bool.false_eq_true, if_false, hcol,
        if_true, Option.some.injEq] at hq
      rw [← hq]
      simp [httpError]
    · rw [handleQuery_connected a b0 query env conn hb hc hcol] at hq
      cases hx : b0.ExecuteTool (Values.Get query "collection" ++ "_find")
          (some (query.foldl queryArgsLoopBody [])) env with
      | none =>
        rw [hx] at hq
        exact Option.noConfusion hq
      | some r =>
        rw [hx] at hq
        obtain ⟨rb, rp, re, rf⟩ := r
        cases re with
        | none =>
          simp only [Option.some.injEq] at hq
          rw [← hq]
          simp
        | some e =>
          simp only [Option.some.injEq] at hq
          rw [← hq]
          simp [httpError]
  · intro name hc hm hname hne
    have hcall := Call_not_connected b "tool_call"
      [("name", JVal.str name),
       ("args", mapValue (asObj (jget (req.Params.getD []) "arguments")))]
      env.writeErr env.during env.timerFired env.choice hc
    have hexec : MCPServer.executeTool b name
        (asObj (jget (req.Params.getD []) "arguments")) render env
          = some { structured := none, err := some { msg := "not connected" },
                   bridge := (b.callRegister "tool_call"
                     [("name", JVal.str name),
                      ("args", mapValue (asObj (jget (req.Params.getD []) "arguments")))]
                     ).1.callFinish (callIdent (wrapInt64 (b.callID + 1))),
                   effects := [] } := by
      simp only [MCPServer.executeTool, Bridge.ExecuteTool, hcall]
      rfl
    rw [handleStateless_toolsCall b req render env name hm hname hne, hexec]
    refine ⟨_, rfl, rfl, rfl, rfl, ?_, ?_⟩
    · exact lookup_mapDelete_self _ _
    · intro k hk
      exact (lookup_mapDelete_ne _ _ _ hk).trans (lookup_mapSet_ne _ _ _ _ hk)

/-- C24: for every POST request to the RPC adapter: a body that fails to decode gives
the error -32700 with the identifier `null`; `tools/call` whose `name` is absent, no
string or empty gives -32602, leaves the bridge as it is and has no effect; `tools/call`
whose tool execution returns an error gives -32000 with the message of that error; a
method other than `initialize`, `notifications/initialized`, `tools/list` and
`tools/call` gives -32601; the last three carry the identifier of the request.  The
error document is `{jsonrpc, id, error:{code, message}}`. -/
theorem rpc_error_codes (b : Bridge) (render : JVal → String) (env : CallEnv) :
    MCPServer.handleStateless b "POST" none render env
        = some { response := MCPServer.jsonRPCError JVal.null (-32700) "Parse error",
                 state := b, effects := [] }
      ∧ (∀ req : RPCRequest, req.Method = "tools/call" →
          (asString (jget (req.Params.getD []) "name") = none
            ∨ asString (jget (req.Params.getD []) "name") = some "") →
          MCPServer.handleStateless b "POST" (some req) render env
            = some { response := MCPServer.jsonRPCError req.ID (-32602)
                       "Invalid params: name required",
                     state := b, effects := [] })
      ∧ (∀ (req : RPCRequest) (name : String) (out : ToolOutcome) (err : GoError),
          req.Method = "tools/call" →
          asString (jget (req.Params.getD []) "name") = some name → name ≠ "" →
          MCPServer.executeTool b name (asObj (jget (req.Params.getD []) "arguments"))
            render env = some out →
          out.err = some err →
          MCPServer.handleStateless b "POST" (some req) render env
            = some { response := MCPServer.jsonRPCError req.ID (-32000) err.msg,
                     state := out.bridge, effects := out.effects })
      ∧ (∀ req : RPCRequest, req.Method ≠ "initialize" →
          req.Method ≠ "notifications/initialized" → req.Method ≠ "tools/list" →
          req.Method ≠ "tools/call" →
          MCPServer.handleStateless b "POST" (some req) render env
            = some { response := MCPServer.jsonRPCError req.ID (-32601)
                       ("Method not found: " ++ req.Method),
                     state := b, effects := [] })
      ∧ (∀ (id : JVal) (code : Int) (message : String),
          (MCPServer.jsonRPCError id code message).body
            = Body.json (JVal.obj [("jsonrpc", JVal.str "2.0"), ("id", id),
                ("error", JVal.obj [("code", JVal.num (toString code)),
                                    ("message", JVal.str message)])])) := by
  have h1 : ¬ ("tools/call" = "initialize") := by decide
  have h2 : ¬ ("tools/call" = "notifications/initialized") := by decide
  have h3 : ¬ ("tools/call" = "tools/list") := by decide
  refine ⟨?_, ?_, ?_, ?_, ?_⟩
  · simp [MCPServer.handleStateless]
  · intro req hm hname
    rcases hname with hn | hn <;>
      simp [MCPServer.handleStateless, hm, h1, h2, h3, hn]
  · intro req name out err hm hname hne hout herr
    rw [handleStateless_toolsCall b req render env name hm hname hne, hout]
    simp only [herr]
  · intro req m1 m2 m3 m4
    simp [MCPServer.handleStateless, m1, m2, m3, m4]
  · intro id code message
    rfl

/-- C24 (witness): four requests to the RPC adapter on the idle bridge: a body that
does not decode, `tools/call` without parameters, `tools/call` of `echo_find` (whose
execution fails with `not connected`, no connection being installed) and the method
`ping`. -/
theorem rpc_error_codes_witness :
    (MCPServer.handleStateless idleBridge "POST" none (fun _ => "")
        (answeredBy objectReply)).map (fun h => h.response)
        = some (MCPServer.jsonRPCError JVal.null (-32700) "Parse error")
      ∧ (MCPServer.handleStateless idleBridge "POST"
          (some { JSONRPC := "2.0", ID := JVal.num "7", Method := "tools/call",
                  Params := none })
          (fun _ => "") (answeredBy objectReply)).map (fun h => h.response)
        = some (MCPServer.jsonRPCError (JVal.num "7") (-32602)
            "Invalid params: name required")
      ∧ (MCPServer.handleStateless idleBridge "POST" (some sampleToolCall)
          (fun _ => "") (answeredBy objectReply)).map (fun h => h.response)
        = some (MCPServer.jsonRPCError (JVal.num "5") (-32000) "not connected")
      ∧ (MCPServer.handleStateless idleBridge "POST"
          (some { JSONRPC := "2.0", ID := JVal.num "8", Method := "ping", Params := none })
          (fun _ => "") (answeredBy objectReply)).map (fun h => h.response)
        = some (MCPServer.jsonRPCError (JVal.num "8") (-32601) "Method not found: ping") :=
  have h := rpc_error_codes idleBridge (fun _ => "") (answeredBy objectReply)
  ⟨congrArg (Option.map (fun h => h.response)) h.1,
    congrArg (Option.map (fun h => h.response))
      (h.2.1 { JSONRPC := "2.0", ID := JVal.num "7", Method := "tools/call",
               Params := none } rfl (Or.inl rfl)),
    congrArg (Option.map (fun h => h.response))
      (h.2.2.1 sampleToolCall "echo_find"
        { structured := none, err := some { msg := "not connected" },
          bridge := (idleBridge.callRegister "tool_call"
            [("name", JVal.str "echo_find"), ("args", mapValue (some []))]).1.callFinish
              "call_1",
          effects := [] }
        { msg := "not connected" } rfl (by decide) (by decide) (by rfl) rfl),
    congrArg (Option.map (fun h => h.response))
      (h.2.2.2.1 { JSONRPC := "2.0", ID := JVal.num "8", Method := "ping",
                   Params := none } (by decide) (by decide) (by decide) (by decide))⟩

/-- C25 (the code at the failing input): `tools/call` of `echo_find` on the accepted
bridge, answered by `{id:"call_1", result:[{title:"x"}]}`.  The payload is valid JSON,
an array, and the result of the RPC adapter carries as `structuredContent` the wrapper
`{"text": "[{\"title\":\"x\"}]"}`, not the array; answered by
`{id:"call_1", result:{count:1}}` it carries the object itself. -/
theorem array_payload_is_wrapped :
    (MCPServer.handleStateless acceptedBridge "POST" (some sampleToolCall)
        (fun _ => arrayText) (answeredBy arrayReply)).map (fun h => h.response)
        = some { status := 200, body := Body.json (JVal.obj
            [("jsonrpc", JVal.str "2.0"), ("id", JVal.num "5"),
             ("result", JVal.obj
               [("content", JVal.arr []),
                ("structuredContent", JVal.obj [("text", JVal.str arrayText)])])]) }
      ∧ (MCPServer.handleStateless acceptedBridge "POST" (some sampleToolCall)
          (fun _ => arrayText) (answeredBy objectReply)).map (fun h => h.response)
        = some { status := 200, body := Body.json (JVal.obj
            [("jsonrpc", JVal.str "2.0"), ("id", JVal.num "5"),
             ("result", JVal.obj
               [("content", JVal.arr []),
                ("structuredContent", JVal.obj [("count", JVal.num "1")])])]) } := by
  refine ⟨by rfl, by rfl⟩

end SyncHub
